import Mathlib

/-!
Verification development for the delta table-format multi-file scan layer
(`src/functions/delta_scan.cpp`).  The C++ source is shallowly embedded:
pure helpers become Lean functions, the stateful lazy file list becomes
explicit state passing over a `DeltaSnapshot` structure, results of calls
into the external delta-kernel FFI (snapshot handles, scan iterators,
visitor batches) become explicit parameters, and fallible operations
return `Except`.
-/

/-! ### String literal constants

String literals used inside expressions are bound to named constants here. -/

def strEmpty : String := ""

def strSlash : String := "/"

def strFileScheme : String := "file://"

def strDotSlash : String := "./"

def strFileRowNumber : String := "file_row_number"

def strDeltaFileNumber : String := "delta_file_number"

def strNewline : String := "\n"

def errGlobalIdOutOfRange : String :=
  "MultiFileReader CreatePositionalMapping - global_id is out of range in global_types for this file"

def errFileRowNumberNotFound : String :=
  "Failed to find the file_row_number column"

def errUnknownRequiredColumn : String :=
  "Unknown column found as required by the DeltaMultiFileReader"

def errSettingMissing : String :=
  "Failed to find delta_scan_explain_files_filtered option"

def errTotalFilesInconsistent : String :=
  "Error encountered when analyzing filtered out files for delta scan: total_files inconsistent"

def errFilteredFilesInconsistent : String :=
  "Error encountered when analyzing filtered out files for delta scan: filtered_files inconsistent"

/-! ### Case-insensitive names (duckdb `case_insensitive_map_t`)

DuckDB keys its column maps by ASCII-case-insensitive string comparison. -/

def asciiLowerChar (c : Char) : Char :=
  if 'A' ≤ c ∧ c ≤ 'Z' then Char.ofNat (c.toNat + 32) else c

def asciiLower (s : String) : String :=
  String.mk (s.data.map asciiLowerChar)

def ciEq (a b : String) : Bool :=
  asciiLower a == asciiLower b

/-- Lookup in an association list by case-insensitive key, first match wins
(the behaviour of `case_insensitive_map_t::find`). -/
def ciLookup {α : Type} (m : List (String × α)) (key : String) : Option α :=
  match m with
  | [] => none
  | (k, v) :: rest => if ciEq k key then some v else ciLookup rest key

/-- Insert keeping the first binding for a key (the behaviour of
`unordered_map::insert`, which does not overwrite an existing key). -/
def ciInsertKeepFirst {α : Type} (m : List (String × α)) (key : String) (v : α) :
    List (String × α) :=
  match ciLookup m key with
  | some _ => m
  | none => m ++ [(key, v)]

/-- Insert overwriting any existing binding for a key (the behaviour of
`unordered_map::operator[]` assignment). -/
def ciInsertOverwrite {α : Type} (m : List (String × α)) (key : String) (v : α) :
    List (String × α) :=
  match m with
  | [] => [(key, v)]
  | (k, w) :: rest =>
    if ciEq k key then (k, v) :: rest else (k, w) :: ciInsertOverwrite rest key v

/-! ### `url_decode` (delta_scan.cpp lines 30-47) and path helpers -/

def isHexDigit (c : Char) : Bool :=
  (decide ('0' ≤ c) && decide (c ≤ '9')) ||
  (decide ('a' ≤ c) && decide (c ≤ 'f')) ||
  (decide ('A' ≤ c) && decide (c ≤ 'F'))

def hexDigitVal (c : Char) : Nat :=
  if '0' ≤ c ∧ c ≤ '9' then c.toNat - 48
  else if 'a' ≤ c ∧ c ≤ 'f' then c.toNat - 87
  else if 'A' ≤ c ∧ c ≤ 'F' then c.toNat - 55
  else 0

/-- Result of `sscanf(two_chars, "%x", &ii)`: parses the maximal hex prefix of
the (at most two character) argument.  When the first character is not a hex
digit `sscanf` fails and the C++ code reads an uninitialized variable; the
model returns 0 there, and every claim about decoding is restricted to inputs
whose escapes are well formed. -/
def scanHexPair (a b : Char) : Nat :=
  if isHexDigit a then
    if isHexDigit b then 16 * hexDigitVal a + hexDigitVal b else hexDigitVal a
  else 0

def plusToSpace (c : Char) : Char :=
  if c = '+' then ' ' else c

/-- The character loop of `url_decode`: on a percent sign, the next two
characters are consumed and the `sscanf`-parsed byte is emitted (the source
advances `i` by two even when fewer than two characters remain). -/
def urlDecodeLoop : List Char → List Char
  | [] => []
  | c :: rest =>
    if c = '%' then
      match rest with
      | [] => [Char.ofNat 0]
      | [a] => [Char.ofNat (scanHexPair a (Char.ofNat 0))]
      | a :: b :: rest2 => Char.ofNat (scanHexPair a b) :: urlDecodeLoop rest2
    else c :: urlDecodeLoop rest

/-- `url_decode` from the source: first every plus is replaced by a space over
the whole string, then the percent-escape loop runs. -/
def url_decode (input : String) : String :=
  String.mk (urlDecodeLoop (input.data.map plusToSpace))

/-- Specification-level decoding, following the claim wording: in one pass,
every plus is replaced by a space and every two-hex-digit percent escape is
decoded to its byte. -/
def specUrlDecode : List Char → List Char
  | [] => []
  | c :: rest =>
    if c = '+' then ' ' :: specUrlDecode rest
    else if c = '%' then
      match rest with
      | [] => [Char.ofNat 0]
      | [a] => [Char.ofNat (scanHexPair a (Char.ofNat 0))]
      | a :: b :: rest2 => Char.ofNat (scanHexPair a b) :: specUrlDecode rest2
    else c :: specUrlDecode rest

/-- Well-formedness of percent escapes: every percent sign is followed by two
hex digits.  On such inputs `sscanf` never fails in the source. -/
def wellFormedEscapes : List Char → Bool
  | [] => true
  | c :: rest =>
    if c = '%' then
      match rest with
      | [] => false
      | [_] => false
      | a :: b :: rest2 => isHexDigit a && isHexDigit b && wellFormedEscapes rest2
    else wellFormedEscapes rest

/-- Character-list prefix test (kernel-computable replacement for the
byte-based `String.isPrefixOf`). -/
def isPrefixOfChars : List Char → List Char → Bool
  | [], _ => true
  | _ :: _, [] => false
  | a :: as, b :: bs => a == b && isPrefixOfChars as bs

def strIsPrefixOf (p s : String) : Bool :=
  isPrefixOfChars p.data s.data

def strDrop (s : String) (n : Nat) : String :=
  String.mk (s.data.drop n)

def strEndsWithSlash (s : String) : Bool :=
  match s.data.getLast? with
  | some c => c == '/'
  | none => false

/-- `StringUtil::RTrim(path, "/")`: drop all trailing slashes. -/
def RTrimSlash (s : String) : String :=
  String.mk (List.reverse (List.dropWhile (fun c => c = '/') s.data.reverse))

/-- `DeltaSnapshot::ToDuckDBPath` (lines 392-397): strip a leading
`file://` scheme. -/
def ToDuckDBPath (raw_path : String) : String :=
  if strIsPrefixOf strFileScheme raw_path then strDrop raw_path 7 else raw_path

/-- `LocalFileSystem::JoinPath`, used by `ToDeltaPath` for relative inputs. -/
def joinPath (a b : String) : String :=
  a ++ strSlash ++ b

/-- `DeltaSnapshot::ToDeltaPath` (lines 399-415).  The working directory used
for `./`-relative paths is host-filesystem state and is passed explicitly. -/
def ToDeltaPath (cwd : String) (raw_path : String) : String :=
  let path :=
    if strIsPrefixOf strDotSlash raw_path then strFileScheme ++ joinPath cwd (strDrop raw_path 2)
    else raw_path
  if strEndsWithSlash path then path else path ++ strSlash

/-- The path resolution performed at the top of `DeltaSnapshot::VisitCallback`
(lines 52-60): right-trim the snapshot root, join the engine-supplied relative
path, url-decode, and convert to a DuckDB path. -/
def resolveEntryPath (root : String) (rel : String) : String :=
  ToDuckDBPath (url_decode (RTrimSlash root ++ strSlash ++ rel))

/-! ### Selection vector builder (`DuckSVFromDeltaSV`, lines 780-802) -/

/-- The keep condition of the loop body: `row_id >= dv.len || dv.ptr[row_id]`.
`row_id` is an `int64_t` and `dv.len` an unsigned word, so the comparison
converts `row_id` to a 64-bit unsigned value, modeled by reduction mod 2^64.
The bitmap access only happens when `row_id < dv.len` (short-circuit), where
it is in bounds. -/
def keepRow (dv : List Bool) (row_id : Int) : Bool :=
  let r := (row_id % ((2 : Int) ^ 64)).toNat
  decide (dv.length ≤ r) || dv.getD r false

/-- The loop of `DuckSVFromDeltaSV`: walk the batch with the running position
`i` and the running kept count, emitting positions whose row passes
`keepRow`. -/
def duckSVLoop (dv : List Bool) : List Int → Nat → Nat → List Nat × Nat
  | [], _, cnt => ([], cnt)
  | r :: rs, i, cnt =>
    if keepRow dv r then
      let rec_result := duckSVLoop dv rs (i + 1) (cnt + 1)
      (i :: rec_result.1, rec_result.2)
    else duckSVLoop dv rs (i + 1) cnt

/-- `DuckSVFromDeltaSV`: from a deletion bitmap and the batch of row ids read
from the `file_row_number` column, produce the dense selection vector and the
kept-row count. -/
def DuckSVFromDeltaSV (dv : List Bool) (row_ids : List Int) : List Nat × Nat :=
  duckSVLoop dv row_ids 0 0

/-! ### Data model of the lazy snapshot file list (`DeltaSnapshot`) -/

/-- One file entry produced by the delta kernel scan iterator, i.e. the data
handed to `DeltaSnapshot::VisitCallback` for one file: relative path, the
optional `Stats` row count, the optional deletion vector (already unpacked by
`selection_vector_from_dv`; `none` models a null pointer), and the kernel
partition-value string map. -/
structure FileEntry where
  path : String
  num_records : Option Nat
  dv : Option (List Bool)
  partition_values : List (String × String)
deriving DecidableEq

/-- `DeltaFileMetaData` as populated by `VisitCallback`.  The `idx_t`
`cardinality` field with its `INVALID_INDEX` default is modeled as an
`Option Nat`. -/
structure DeltaFileMetaData where
  delta_snapshot_version : Nat
  file_number : Nat
  cardinality : Option Nat
  selection_vector : Option (List Bool)
  partition_map : List (String × String)
deriving DecidableEq

/-- An opened kernel snapshot handle (`shared_ptr<SharedKernelSnapshot>`).
The `handle_id` stands for the identity of the shared handle; `version` is
what `ffi::version` reports for it. -/
structure SharedKernelSnapshot where
  handle_id : Nat
  version : Nat
deriving DecidableEq

/-- The mutable state of a `DeltaSnapshot`.  The opaque engine scan iterator
is modeled as the list of file-entry batches it has left to yield: each
`kernel_scan_data_next` call either consumes the head batch (returning true)
or reports exhaustion on the empty list. -/
structure DeltaSnapshot where
  rootPath : String
  names : List String
  table_filters : List (Nat × String)
  snapshot : Option SharedKernelSnapshot
  initialized_snapshot : Bool
  initialized_scan : Bool
  version : Nat
  scan_data_iterator : List (List FileEntry)
  resolved_files : List String
  metadata : List DeltaFileMetaData
  files_exhausted : Bool
deriving DecidableEq

/-- Exact-key lookup in the kernel `CStringMap` (`ffi::get_from_map`). -/
def lookupExact {α : Type} (m : List (String × α)) (key : String) : Option α :=
  match m with
  | [] => none
  | (k, v) :: rest => if k == key then some v else lookupExact rest key

/-- The constant-map construction of `VisitCallback` (lines 82-91): probe the
kernel partition-value map with every bound column name and record the hits
in a case-insensitive map. -/
def buildConstantMap (names : List String) (partition_values : List (String × String)) :
    List (String × String) :=
  names.foldl (fun acc col =>
    match lookupExact partition_values col with
    | some v => ciInsertOverwrite acc col v
    | none => acc) []

/-- `DeltaSnapshot::VisitCallback` (lines 49-92): append the resolved path and
a freshly initialized metadata entry carrying the current snapshot version,
the new file ordinal (`resolved_files.size() - 1` after the push), the row
count from `Stats`, the deletion vector, and the partition constant map. -/
def visitCallback (s : DeltaSnapshot) (e : FileEntry) : DeltaSnapshot :=
  { s with
    resolved_files := s.resolved_files ++ [resolveEntryPath s.rootPath e.path]
    metadata := s.metadata ++ [{
      delta_snapshot_version := s.version
      file_number := s.resolved_files.length + 1 - 1
      cardinality := e.num_records
      selection_vector := e.dv
      partition_map := buildConstantMap s.names e.partition_values }] }

/-- `DeltaSnapshot::VisitData`: one engine batch visits its entries in
order. -/
def visitBatch (s : DeltaSnapshot) (batch : List FileEntry) : DeltaSnapshot :=
  batch.foldl visitCallback s

/-- `DeltaSnapshot::InitializeSnapshot` (lines 486-498).  The kernel snapshot
the FFI would open is passed in as `fresh`; it is only installed when no
shared snapshot handle is present yet. -/
def initializeSnapshot (fresh : SharedKernelSnapshot) (s : DeltaSnapshot) : DeltaSnapshot :=
  { s with
    snapshot := if s.snapshot.isNone then some fresh else s.snapshot
    initialized_snapshot := true }

/-- `DeltaSnapshot::InitializeScan` (lines 500-517): pin the version reported
by the shared snapshot handle and install the scan data iterator obtained
from the engine (passed in as `iter`). -/
def initializeScan (iter : List (List FileEntry)) (s : DeltaSnapshot) : DeltaSnapshot :=
  { s with
    version := (s.snapshot.map SharedKernelSnapshot.version).getD 0
    scan_data_iterator := iter
    initialized_scan := true }

/-- The initialization prologue of `GetFileInternal` (lines 448-454). -/
def initPhase (fresh : SharedKernelSnapshot) (iter : List (List FileEntry))
    (s : DeltaSnapshot) : DeltaSnapshot :=
  let s1 := if s.initialized_snapshot then s else initializeSnapshot fresh s
  if s1.initialized_scan then s1 else initializeScan iter s1

/-- The pull loop of `GetFileInternal` (lines 465-475), recursing on the
batches the scan iterator has left.  Returns the result string, the state
after the loop (with the un-consumed iterator restored), and the number of
`kernel_scan_data_next` engine calls performed. -/
def getFileLoop (i : Nat) : DeltaSnapshot → List (List FileEntry) →
    String × DeltaSnapshot × Nat
  | s, [] =>
    if i < s.resolved_files.length then
      (s.resolved_files.getD i strEmpty, { s with scan_data_iterator := [] }, 0)
    else
      (strEmpty, { s with scan_data_iterator := [], files_exhausted := true }, 1)
  | s, batch :: rest =>
    if i < s.resolved_files.length then
      (s.resolved_files.getD i strEmpty, { s with scan_data_iterator := batch :: rest }, 0)
    else
      let stepped := getFileLoop i (visitBatch s batch) rest
      (stepped.1, stepped.2.1, stepped.2.2 + 1)

/-- `DeltaSnapshot::GetFileInternal` (lines 447-478): initialize if needed,
serve a memoized ordinal, short-circuit when exhausted, otherwise pull
batches until ordinal `i` is materialized or the iterator is exhausted.
`GetFile` is this under the instance lock. -/
def getFileInternal (fresh : SharedKernelSnapshot) (iter : List (List FileEntry))
    (s : DeltaSnapshot) (i : Nat) : String × DeltaSnapshot × Nat :=
  let s2 := initPhase fresh iter s
  if i < s2.resolved_files.length then (s2.resolved_files.getD i strEmpty, s2, 0)
  else if s2.files_exhausted then (strEmpty, s2, 0)
  else getFileLoop i { s2 with scan_data_iterator := [] } s2.scan_data_iterator

/-- Total number of file entries a batch list still holds. -/
def totalEntries (iter : List (List FileEntry)) : Nat :=
  (iter.map List.length).sum

/-- Fuel bound for the expansion loops of `GetTotalFileCount` and
`GetAllFiles`: every iteration but the last materializes at least one new
file, so the remaining entry count plus one suffices. -/
def snapshotFuel (s : DeltaSnapshot) (iter : List (List FileEntry)) : Nat :=
  totalEntries (cond s.initialized_scan s.scan_data_iterator iter) + 1

/-- The loop shared by `GetTotalFileCount` (lines 615-622) and `GetAllFiles`
(lines 597-605): keep requesting the next ordinal until `GetFileInternal`
returns the empty string. -/
def expandAllLoop (fresh : SharedKernelSnapshot) (iter : List (List FileEntry)) :
    Nat → DeltaSnapshot → Nat → DeltaSnapshot
  | 0, s, _ => s
  | fuel + 1, s, i =>
    let step := getFileInternal fresh iter s i
    if step.1 = strEmpty then step.2.1
    else expandAllLoop fresh iter fuel step.2.1 (i + 1)

/-- `DeltaSnapshot::GetTotalFileCount`. -/
def getTotalFileCount (fresh : SharedKernelSnapshot) (iter : List (List FileEntry))
    (s : DeltaSnapshot) : Nat × DeltaSnapshot :=
  let s' := expandAllLoop fresh iter (snapshotFuel s iter) s s.resolved_files.length
  (s'.resolved_files.length, s')

/-- `DeltaSnapshot::GetAllFiles`. -/
def DeltaSnapshot.getAllFiles (fresh : SharedKernelSnapshot) (iter : List (List FileEntry))
    (s : DeltaSnapshot) : List String × DeltaSnapshot :=
  let s' := expandAllLoop fresh iter (snapshotFuel s iter) s s.resolved_files.length
  (s'.resolved_files, s')

/-- The `idx_t` accumulation of per-file cardinalities in `GetCardinality`
(lines 635-642); entries without statistics are skipped and the 64-bit
addition wraps. -/
def accumulateCardinality (metadata : List DeltaFileMetaData) : Nat :=
  metadata.foldl (fun acc m =>
    match m.cardinality with
    | some c => (acc + c) % 2 ^ 64
    | none => acc) 0

/-- The `have_any_stats` flag of `GetCardinality`. -/
def haveAnyStats (metadata : List DeltaFileMetaData) : Bool :=
  metadata.any (fun m => m.cardinality.isSome)

/-- `DeltaSnapshot::GetCardinality` (lines 624-649): force full expansion,
return statistics `(0, 0)` for an empty file list, the wrapped sum as both
estimated and exact cardinality when any file carries statistics, and no
statistics (`none`, i.e. a null `NodeStatistics`) otherwise. -/
def getCardinality (fresh : SharedKernelSnapshot) (iter : List (List FileEntry))
    (s : DeltaSnapshot) : Option (Nat × Nat) × DeltaSnapshot :=
  let expanded := getTotalFileCount fresh iter s
  let s' := expanded.2
  if expanded.1 = 0 then (some (0, 0), s')
  else if haveAnyStats s'.metadata then
    (some (accumulateCardinality s'.metadata, accumulateCardinality s'.metadata), s')
  else (none, s')

/-! ### Column reconciliation data model -/

/-- The DuckDB logical types this layer manipulates. -/
inductive LType where
  | blob
  | varchar
  | integer
  | bigint
  | ubigint
  | boolean
deriving DecidableEq

/-- A `MultiFileReaderColumnDefinition`: a column name and its declared
type. -/
structure MFRColumnDefinition where
  name : String
  type : LType
deriving DecidableEq

def defaultColumnDef : MFRColumnDefinition :=
  { name := strEmpty, type := LType.varchar }

/-- A DuckDB `Value` as this layer constructs them.  `defaultCastAs` records
the deferred `Value(str).DefaultCastAs(type)` conversion symbolically (the
cast itself is DuckDB code outside this repository), `blobRaw` is
`Value::BLOB_RAW`, and `nullOf` is the null value `Value(type)`. -/
inductive DValue where
  | blobRaw (raw : String)
  | defaultCastAs (s : String) (t : LType)
  | nullOf (t : LType)
  | ubigintVal (n : Nat)
deriving DecidableEq

/-- `MultiFileReaderData`: the per-file mapping state filled in by
`FinalizeBind` and `CreateColumnMapping`. -/
structure MultiFileReaderData where
  constant_map : List (Nat × DValue)
  cast_map : List (Nat × LType)
  column_mapping : List Nat
  column_ids : List Nat
  empty_columns : Bool
deriving DecidableEq

def COLUMN_IDENTIFIER_ROW_ID : Nat := 2 ^ 64 - 1

def INVALID_INDEX : Nat := 2 ^ 64 - 1

def IsRowIdColumnId (column_id : Nat) : Bool :=
  column_id == COLUMN_IDENTIFIER_ROW_ID

/-- Insert overwriting an existing binding in a `Nat`-keyed map
(`map::operator[]` assignment, used for `cast_map`). -/
def natInsertOverwrite {α : Type} (m : List (Nat × α)) (key : Nat) (v : α) : List (Nat × α) :=
  match m with
  | [] => [(key, v)]
  | (k, w) :: rest =>
    if k == key then (k, v) :: rest else (k, w) :: natInsertOverwrite rest key v

/-- The partition-constant loop of `DeltaMultiFileReader::FinalizeBind`
(lines 741-758): for every projected non-rowid global column whose name hits
the partition map (case-insensitively), emit a constant: the raw bytes as a
BLOB when the declared type is BLOB, otherwise the string cast to the
declared type.  `i` is the running position in `global_column_ids`. -/
def partitionConstantsLoop (global_columns : List MFRColumnDefinition)
    (partition_map : List (String × String)) :
    Nat → List Nat → List (Nat × DValue)
  | _, [] => []
  | i, col_id :: rest =>
    if IsRowIdColumnId col_id then
      partitionConstantsLoop global_columns partition_map (i + 1) rest
    else
      let col := global_columns.getD col_id defaultColumnDef
      match ciLookup partition_map col.name with
      | some v =>
        let value :=
          if col.type == LType.blob then DValue.blobRaw v
          else DValue.defaultCastAs v col.type
        (i, value) :: partitionConstantsLoop global_columns partition_map (i + 1) rest
      | none => partitionConstantsLoop global_columns partition_map (i + 1) rest

/-- The delta-specific part of `DeltaMultiFileReader::FinalizeBind`
(lines 721-758), after the base-class call: the `delta_file_number`
placeholder constant, then the partition constants whenever the file carries
a non-empty partition map. -/
def finalizeBindDelta (delta_file_number_opt : Bool) (delta_file_number_idx : Nat)
    (global_columns : List MFRColumnDefinition) (global_column_ids : List Nat)
    (file_metadata : DeltaFileMetaData) (rd : MultiFileReaderData) : MultiFileReaderData :=
  let rd1 :=
    if delta_file_number_opt then
      { rd with constant_map := rd.constant_map ++ [(delta_file_number_idx, DValue.ubigintVal 0)] }
    else rd
  if file_metadata.partition_map.isEmpty then rd1
  else
    { rd1 with
      constant_map := rd1.constant_map ++
        partitionConstantsLoop global_columns file_metadata.partition_map 0 global_column_ids }

/-- The local name map built at the top of `CustomMulfiFileNameMapping`:
`name_map[col.name] = col_idx` for each local column, with `operator[]`
overwrite semantics. -/
def buildNameMapLoop : Nat → List MFRColumnDefinition → List (String × Nat) → List (String × Nat)
  | _, [], acc => acc
  | col_idx, c :: rest, acc => buildNameMapLoop (col_idx + 1) rest (ciInsertOverwrite acc c.name col_idx)

def buildNameMap (local_columns : List MFRColumnDefinition) : List (String × Nat) :=
  buildNameMapLoop 0 local_columns []

/-- The per-projected-column loop of `CustomMulfiFileNameMapping`
(lines 895-942): skip columns already constant for this file; reject an
out-of-range global id; resolve a name miss to a null constant of the
declared global type; otherwise map to the local column, recording a cast
when the local type differs from the declared global type. -/
def customMapLoop (local_columns global_columns : List MFRColumnDefinition)
    (name_map : List (String × Nat)) :
    Nat → List Nat → MultiFileReaderData → Except String MultiFileReaderData
  | _, [], rd => .ok rd
  | i, global_id :: rest, rd =>
    if rd.constant_map.any (fun e => e.1 == i) then
      customMapLoop local_columns global_columns name_map (i + 1) rest rd
    else if h : global_id < global_columns.length then
      let gcol := global_columns.get ⟨global_id, h⟩
      match ciLookup name_map gcol.name with
      | none =>
        customMapLoop local_columns global_columns name_map (i + 1) rest
          { rd with constant_map := rd.constant_map ++ [(i, DValue.nullOf gcol.type)] }
      | some local_id =>
        let local_type := (local_columns.getD local_id defaultColumnDef).type
        let rd1 :=
          if gcol.type ≠ local_type then
            { rd with cast_map := natInsertOverwrite rd.cast_map local_id gcol.type }
          else rd
        customMapLoop local_columns global_columns name_map (i + 1) rest
          { rd1 with
            column_mapping := rd1.column_mapping ++ [i]
            column_ids := rd1.column_ids ++ [local_id] }
    else .error errGlobalIdOutOfRange

/-- `CustomMulfiFileNameMapping` (lines 884-945). -/
def customMulfiFileNameMapping (local_columns global_columns : List MFRColumnDefinition)
    (global_column_ids : List Nat) (rd : MultiFileReaderData) :
    Except String MultiFileReaderData :=
  let name_map := buildNameMap local_columns
  match customMapLoop local_columns global_columns name_map 0 global_column_ids rd with
  | .error e => .error e
  | .ok rd' => .ok { rd' with empty_columns := rd'.column_ids.isEmpty }

/-- `DeltaMultiFileReader::CreateColumnMapping` (lines 947-985): the custom
name mapping, then, when `file_row_number` is an extra column beyond the
projection, register it to be scanned from the file. -/
def createColumnMapping (local_columns global_columns : List MFRColumnDefinition)
    (global_column_ids : List Nat) (rd : MultiFileReaderData)
    (file_row_number_idx : Nat) : Except String MultiFileReaderData :=
  match customMulfiFileNameMapping local_columns global_columns global_column_ids rd with
  | .error e => .error e
  | .ok rd1 =>
    if global_column_ids.length ≤ file_row_number_idx then
      let name_map := buildNameMap local_columns
      match ciLookup name_map strFileRowNumber with
      | none => .error errFileRowNumberNotFound
      | some local_id =>
        let rd2 :=
          { rd1 with
            column_ids := rd1.column_ids ++ [local_id]
            column_mapping := rd1.column_mapping ++ [file_row_number_idx] }
        .ok { rd2 with empty_columns := rd2.column_ids.isEmpty }
    else .ok { rd1 with empty_columns := rd1.column_ids.isEmpty }

/-! ### Synthetic column index mapping (`InitializeGlobalState`, lines 816-880) -/

/-- `DeltaMultiFileReaderGlobalState`: the synthetic-column index map.  The
`idx_t` fields default to `INVALID_INDEX`. -/
structure DeltaMultiFileReaderGlobalState where
  extra_columns : List LType
  file_row_number_idx : Nat
  delta_file_number_idx : Nat
deriving DecidableEq

/-- `DeltaMultiFileReaderGlobalState::SetColumnIdx` (lines 805-814). -/
def setColumnIdx (st : DeltaMultiFileReaderGlobalState) (column : String) (idx : Nat) :
    Except String DeltaMultiFileReaderGlobalState :=
  if column == strFileRowNumber then .ok { st with file_row_number_idx := idx }
  else if column == strDeltaFileNumber then .ok { st with delta_file_number_idx := idx }
  else .error errUnknownRequiredColumn

/-- The `selected_columns` map of `InitializeGlobalState` (lines 825-834):
projection position by global column name, skipping rowid ids, first binding
winning (`unordered_map::insert`). -/
def buildSelectedLoop (global_columns : List MFRColumnDefinition) :
    Nat → List Nat → List (String × Nat) → List (String × Nat)
  | _, [], acc => acc
  | i, gid :: rest, acc =>
    if IsRowIdColumnId gid then buildSelectedLoop global_columns (i + 1) rest acc
    else
      buildSelectedLoop global_columns (i + 1) rest
        (ciInsertKeepFirst acc (global_columns.getD gid defaultColumnDef).name i)

/-- The mapping loop of `InitializeGlobalState` (lines 849-870): each required
synthetic column either reuses the projection position found in
`selected_columns` or is allocated the next trailing index
`global_column_ids.size() + col_offset`, also recording its type as an extra
column. -/
def mapRequiredColumns (selected : List (String × Nat)) (ids_len : Nat) :
    List (String × LType) → Nat → List (String × Nat) × List LType
  | [], _ => ([], [])
  | (name, ty) :: rest, col_offset =>
    match ciLookup selected name with
    | some idx =>
      let tail := mapRequiredColumns selected ids_len rest col_offset
      ((name, idx) :: tail.1, tail.2)
    | none =>
      let tail := mapRequiredColumns selected ids_len rest (col_offset + 1)
      ((name, ids_len + col_offset) :: tail.1, ty :: tail.2)

/-- `DeltaMultiFileReader::InitializeGlobalState` (lines 816-880).  The
`columns_to_map` container is an unordered map holding `file_row_number` and,
when the option is set, `delta_file_number`; its iteration order is fixed by
the library for given contents and is modeled with `file_row_number`
first. -/
def initializeGlobalState (delta_file_number_opt : Bool)
    (global_columns : List MFRColumnDefinition) (global_column_ids : List Nat) :
    Except String DeltaMultiFileReaderGlobalState :=
  let selected := buildSelectedLoop global_columns 0 global_column_ids []
  let columns_to_map :=
    (strFileRowNumber, LType.bigint) ::
      (if delta_file_number_opt then [(strDeltaFileNumber, LType.ubigint)] else [])
  let mapped := mapRequiredColumns selected global_column_ids.length columns_to_map 0
  (mapped.1).foldlM (fun st mc => setColumnIdx st mc.1 mc.2)
    { extra_columns := mapped.2, file_row_number_idx := INVALID_INDEX,
      delta_file_number_idx := INVALID_INDEX }

/-! ### Filter pushdown (`ComplexFilterPushdown`, lines 519-595) -/

/-- Modelled from the spec: the field defaults of a freshly constructed
`DeltaSnapshot` come from the class declaration in `delta_scan.hpp`, which is
not part of the sources here; per the spec a newly created file list has an
un-started discovery cursor (nothing initialized, not exhausted) and no
materialized files.  The constructor stores `ToDeltaPath(path)` as the single
root path. -/
def freshDeltaSnapshot (cwd : String) (path : String) : DeltaSnapshot :=
  { rootPath := ToDeltaPath cwd path
    names := []
    table_filters := []
    snapshot := none
    initialized_snapshot := false
    initialized_scan := false
    version := 0
    scan_data_iterator := []
    resolved_files := []
    metadata := []
    files_exhausted := false }

/-- The construction of the forked list in `ComplexFilterPushdown`
(lines 535-543): a fresh `DeltaSnapshot` for the same path, the combined
filters, the parent's bound names, and — crucially — the parent's shared
snapshot handle. -/
def makeFilteredList (cwd : String) (parent : DeltaSnapshot)
    (filterstmp : List (Nat × String)) : DeltaSnapshot :=
  { freshDeltaSnapshot cwd parent.rootPath with
    table_filters := filterstmp
    names := parent.names
    snapshot := parent.snapshot }

/-- The `MultiFilePushdownInfo::extra_info` fields this code touches. -/
structure ExtraInfo where
  total_files : Option Nat
  filtered_files : Option Nat
  file_filters : String
deriving DecidableEq

/-- Modelled from the spec: the human-readable rendering of one pushed-down
filter against a column name (`TableFilter::ToString` is DuckDB code outside
this repository). -/
def filterToString (f : String) (col_name : String) : String :=
  f ++ col_name

/-- The `filters_info` rendering loop of `ComplexFilterPushdown`
(lines 560-573): filters on in-range column indexes, joined by newlines. -/
def renderFilters (filters : List (Nat × String)) (names : List String) : String :=
  (filters.foldl (fun acc f =>
    if f.1 < names.length then
      let sep := if acc.2 then strEmpty else strNewline
      (acc.1 ++ sep ++ filterToString f.2 (names.getD f.1 strEmpty), false)
    else acc) (strEmpty, true)).1

/-- The `filtered_files` consistency check at the end of the profiling block
(lines 585-590). -/
def checkFilteredFiles (new_total : Nat) (info : ExtraInfo) (filtered : DeltaSnapshot)
    (parent : DeltaSnapshot) : Except String (Option DeltaSnapshot × DeltaSnapshot × ExtraInfo) :=
  match info.filtered_files with
  | none => .ok (some filtered, parent, { info with filtered_files := some new_total })
  | some f =>
    if new_total ≤ f then
      .ok (some filtered, parent, { info with filtered_files := some new_total })
    else .error errFilteredFilesInconsistent

/-- `DeltaSnapshot::ComplexFilterPushdown` (lines 519-595).  `filters` is the
planner's predicate list; `filterstmp` stands for the result of the external
`FilterCombiner::GenerateTableScanFilters` call on it; the profiler flag and
the `delta_scan_explain_files_filtered` setting are passed explicitly, as are
the engine results the two `GetTotalFileCount` expansions would consume.
Returns the optional forked list, the (possibly expanded) parent state, and
the updated extra info. -/
def complexFilterPushdown (cwd : String)
    (freshP : SharedKernelSnapshot) (iterP : List (List FileEntry))
    (freshF : SharedKernelSnapshot) (iterF : List (List FileEntry))
    (parent : DeltaSnapshot) (filters : List String) (filterstmp : List (Nat × String))
    (profilerEnabled settingPresent settingValue : Bool) (info : ExtraInfo) :
    Except String (Option DeltaSnapshot × DeltaSnapshot × ExtraInfo) :=
  if filters.isEmpty then .ok (none, parent, info)
  else
    let filtered0 := makeFilteredList cwd parent filterstmp
    if profilerEnabled then
      if settingPresent = false then .error errSettingMissing
      else if settingValue then
        let expandedP := getTotalFileCount freshP iterP parent
        let expandedF := getTotalFileCount freshF iterF filtered0
        let old_total := expandedP.1
        let new_total := expandedF.1
        let info1 :=
          if old_total ≠ new_total then
            { info with file_filters := renderFilters filtered0.table_filters parent.names }
          else info
        match info1.total_files with
        | none =>
          checkFilteredFiles new_total { info1 with total_files := some old_total }
            expandedF.2 expandedP.2
        | some t =>
          if t < old_total then .error errTotalFilesInconsistent
          else checkFilteredFiles new_total info1 expandedF.2 expandedP.2
      else .ok (some filtered0, parent, info)
    else .ok (some filtered0, parent, info)

/-! ### Invariants and side conditions -/

/-- The structural invariant of a `DeltaSnapshot` maintained by discovery:
paths and metadata have equal length, the metadata entry at ordinal `k`
records `file_number = k` and the pinned snapshot version, and no metadata
exists before the scan is initialized (file entries are only ever created by
pulls, which happen after `InitializeScan`). -/
def SnapshotInv (s : DeltaSnapshot) : Prop :=
  s.resolved_files.length = s.metadata.length ∧
  (∀ k, ∀ h : k < s.metadata.length,
    (s.metadata.get ⟨k, h⟩).file_number = k ∧
    (s.metadata.get ⟨k, h⟩).delta_snapshot_version = s.version) ∧
  (s.initialized_scan = false → s.metadata = [])

/-- Side condition for exhaustion reasoning: every materialized path, and
every path an entry still in the engine iterator would resolve to, is
non-empty (true of real resolved paths, which always contain the joining
slash). -/
def pathsNonempty (s : DeltaSnapshot) (iter : List (List FileEntry)) : Prop :=
  (∀ p ∈ s.resolved_files, p ≠ strEmpty) ∧
  (∀ b ∈ cond s.initialized_scan s.scan_data_iterator iter, ∀ e ∈ b,
    resolveEntryPath s.rootPath e.path ≠ strEmpty)

instance (s : DeltaSnapshot) : Decidable (SnapshotInv s) := by
  unfold SnapshotInv; infer_instance

instance (s : DeltaSnapshot) (iter : List (List FileEntry)) :
    Decidable (pathsNonempty s iter) := by
  unfold pathsNonempty; infer_instance


/-- Plain (unwrapped) sum of the per-file row-count estimates present in a
metadata list, used to state the cardinality claim. -/
def sumCardinalities (metadata : List DeltaFileMetaData) : Nat :=
  (metadata.map (fun m => m.cardinality.getD 0)).sum

/-! ### Concrete instances used by the witnesses -/

def exampleKernel : SharedKernelSnapshot :=
  { handle_id := 1, version := 7 }

def exampleEntryA : FileEntry :=
  { path := "a%20x.parquet", num_records := some 3, dv := none,
    partition_values := [("region", "us")] }

def exampleEntryB : FileEntry :=
  { path := "b.parquet", num_records := some 4, dv := some [true, false],
    partition_values := [] }

def exampleSnapshotState : DeltaSnapshot :=
  { rootPath := "file:///tmp/t/"
    names := ["region", "val"]
    table_filters := []
    snapshot := some exampleKernel
    initialized_snapshot := true
    initialized_scan := true
    version := 7
    scan_data_iterator := [[exampleEntryA], [exampleEntryB]]
    resolved_files := []
    metadata := []
    files_exhausted := false }

def exampleEmptySnapshotState : DeltaSnapshot :=
  { exampleSnapshotState with scan_data_iterator := [] }

def exampleGlobalColumns : List MFRColumnDefinition :=
  [{ name := "region", type := LType.varchar },
   { name := "val", type := LType.integer },
   { name := "payload", type := LType.blob },
   { name := "extra", type := LType.varchar }]

def exampleLocalColumns : List MFRColumnDefinition :=
  [{ name := "VAL", type := LType.bigint },
   { name := "file_row_number", type := LType.bigint }]

def examplePartitionMeta : DeltaFileMetaData :=
  { delta_snapshot_version := 7
    file_number := 0
    cardinality := some 3
    selection_vector := none
    partition_map := [("Region", "us"), ("payload", "bytes")] }

def emptyReaderData : MultiFileReaderData :=
  { constant_map := [], cast_map := [], column_mapping := [], column_ids := [],
    empty_columns := true }

def exampleForkFilters : List (Nat × String) :=
  [(0, "eq us")]

/-! ### Theorems -/

theorem duckSVLoop_spec (dv : List Bool) :
    ∀ (rows : List Int) (i cnt : Nat),
      (duckSVLoop dv rows i cnt).1 =
        ((List.range rows.length).filter (fun j => keepRow dv (rows.getD j 0))).map
          (fun j => j + i) ∧
      (duckSVLoop dv rows i cnt).2 =
        cnt + ((List.range rows.length).filter (fun j => keepRow dv (rows.getD j 0))).length := by
  intro rows
  induction rows with
  | nil => intro i cnt; simp [duckSVLoop]
  | cons r rs ih =>
    intro i cnt
    have hrange : List.range (rs.length + 1) = 0 :: (List.range rs.length).map Nat.succ :=
      List.range_succ_eq_map rs.length
    have hcomp : (fun j => keepRow dv ((r :: rs).getD j 0)) ∘ Nat.succ =
        fun j => keepRow dv (rs.getD j 0) := by
      funext j; rfl
    have hfilter :
        ((List.range (r :: rs).length).filter (fun j => keepRow dv ((r :: rs).getD j 0))) =
          (if keepRow dv r then [0] else []) ++
            ((List.range rs.length).filter (fun j => keepRow dv (rs.getD j 0))).map Nat.succ := by
      rw [List.length_cons, hrange, List.filter_cons, List.filter_map, hcomp]
      by_cases hk : keepRow dv r
      · simp [hk]
      · simp [hk]
    by_cases hk : keepRow dv r = true
    · have l1 : (duckSVLoop dv (r :: rs) i cnt).1 = i :: (duckSVLoop dv rs (i + 1) (cnt + 1)).1 := by
        simp [duckSVLoop, hk]
      have l2 : (duckSVLoop dv (r :: rs) i cnt).2 = (duckSVLoop dv rs (i + 1) (cnt + 1)).2 := by
        simp [duckSVLoop, hk]
      rcases ih (i + 1) (cnt + 1) with ⟨ih1, ih1c⟩
      constructor
      · rw [l1, hfilter, ih1]
        simp only [hk, if_true, List.singleton_append, List.map_cons, List.map_map,
          Nat.zero_add]
        congr 1
        apply List.map_congr_left
        intro j hj
        simp only [Function.comp_apply]
        omega
      · rw [l2, hfilter, ih1c]
        simp [hk]
        omega
    · have l1 : (duckSVLoop dv (r :: rs) i cnt).1 = (duckSVLoop dv rs (i + 1) cnt).1 := by
        simp [duckSVLoop, hk]
      have l2 : (duckSVLoop dv (r :: rs) i cnt).2 = (duckSVLoop dv rs (i + 1) cnt).2 := by
        simp [duckSVLoop, hk]
      rcases ih (i + 1) cnt with ⟨ih2, ih2c⟩
      constructor
      · rw [l1, hfilter, ih2]
        simp only [hk, if_false, List.nil_append, List.map_map, Bool.false_eq_true]
        apply List.map_congr_left
        intro j hj
        simp only [Function.comp_apply]
        omega
      · rw [l2, hfilter, ih2c]
        simp [hk]

theorem keepRow_ordinal (dv : List Bool) (r : Int) (h0 : 0 ≤ r) (h1 : r < 2 ^ 63) :
    keepRow dv r = (decide (dv.length ≤ r.toNat) || dv.getD r.toNat false) := by
  have hmod : r % (2 : Int) ^ 64 = r := by
    apply Int.emod_eq_of_lt h0
    calc r < 2 ^ 63 := h1
    _ ≤ (2 : Int) ^ 64 := by norm_num
  unfold keepRow
  rw [hmod]

/-- C1: for every deletion bitmap and non-empty batch of row ordinals read
from the `file_row_number` column, `DuckSVFromDeltaSV` keeps exactly the
positions whose ordinal is at least the bitmap length or whose bitmap entry
is true, emits them in the relative order of the batch (strictly increasing
positions), and returns a kept count equal to the number of kept rows. -/
theorem duckSVFromDeltaSV_correct (dv : List Bool) (row_ids : List Int)
    (hne : row_ids ≠ [])
    (hords : ∀ r ∈ row_ids, 0 ≤ r ∧ r < 2 ^ 63) :
    (DuckSVFromDeltaSV dv row_ids).1 =
      (List.range row_ids.length).filter
        (fun i => decide (dv.length ≤ (row_ids.getD i 0).toNat) ||
          dv.getD (row_ids.getD i 0).toNat false) ∧
    (DuckSVFromDeltaSV dv row_ids).2 =
      ((List.range row_ids.length).filter
        (fun i => decide (dv.length ≤ (row_ids.getD i 0).toNat) ||
          dv.getD (row_ids.getD i 0).toNat false)).length ∧
    List.Pairwise (fun a b => a < b) (DuckSVFromDeltaSV dv row_ids).1 := by
  have hspec := duckSVLoop_spec dv row_ids 0 0
  have hfil :
      (List.range row_ids.length).filter (fun j => keepRow dv (row_ids.getD j 0)) =
        (List.range row_ids.length).filter
          (fun i => decide (dv.length ≤ (row_ids.getD i 0).toNat) ||
            dv.getD (row_ids.getD i 0).toNat false) := by
    apply List.filter_congr
    intro j hj
    have hjlt : j < row_ids.length := List.mem_range.mp hj
    have hmem : row_ids.getD j 0 ∈ row_ids := by
      rw [List.getD_eq_getElem _ _ hjlt]
      exact List.getElem_mem hjlt
    rcases hords _ hmem with ⟨h0, h1⟩
    exact keepRow_ordinal dv _ h0 h1
  have h1 : (DuckSVFromDeltaSV dv row_ids).1 =
      (List.range row_ids.length).filter
        (fun i => decide (dv.length ≤ (row_ids.getD i 0).toNat) ||
          dv.getD (row_ids.getD i 0).toNat false) := by
    show (duckSVLoop dv row_ids 0 0).1 = _
    rw [hspec.1, ← hfil]
    simp
  refine ⟨h1, ?_, ?_⟩
  · show (duckSVLoop dv row_ids 0 0).2 = _
    rw [hspec.2, ← hfil]
    simp
  · rw [h1]
    exact (List.pairwise_lt_range _).filter _

/-- Witness for C1 at a concrete bitmap and batch. -/
theorem duckSVFromDeltaSV_correct_witness :
    (DuckSVFromDeltaSV [true, false, true] [0, 1, 2, 3]).1 = [0, 2, 3] ∧
    (DuckSVFromDeltaSV [true, false, true] [0, 1, 2, 3]).2 = 3 := by
  have h := duckSVFromDeltaSV_correct [true, false, true] [0, 1, 2, 3]
    (by decide) (by decide)
  exact ⟨h.1.trans (by decide), h.2.1.trans (by decide)⟩

/-- C6: a pushdown call with an empty predicate list returns no fork and
leaves the original file list (and the pushdown info) unchanged, whatever
the profiling configuration. -/
theorem complexFilterPushdown_empty_filters (cwd : String)
    (freshP : SharedKernelSnapshot) (iterP : List (List FileEntry))
    (freshF : SharedKernelSnapshot) (iterF : List (List FileEntry))
    (parent : DeltaSnapshot) (filterstmp : List (Nat × String))
    (profilerEnabled settingPresent settingValue : Bool) (info : ExtraInfo) :
    complexFilterPushdown cwd freshP iterP freshF iterF parent [] filterstmp
      profilerEnabled settingPresent settingValue info = .ok (none, parent, info) := by
  rfl

@[simp] theorem visitCallback_rootPath (s : DeltaSnapshot) (e : FileEntry) :
    (visitCallback s e).rootPath = s.rootPath := rfl

@[simp] theorem visitCallback_names (s : DeltaSnapshot) (e : FileEntry) :
    (visitCallback s e).names = s.names := rfl

@[simp] theorem visitCallback_snapshot (s : DeltaSnapshot) (e : FileEntry) :
    (visitCallback s e).snapshot = s.snapshot := rfl

@[simp] theorem visitCallback_initialized_snapshot (s : DeltaSnapshot) (e : FileEntry) :
    (visitCallback s e).initialized_snapshot = s.initialized_snapshot := rfl

@[simp] theorem visitCallback_initialized_scan (s : DeltaSnapshot) (e : FileEntry) :
    (visitCallback s e).initialized_scan = s.initialized_scan := rfl

@[simp] theorem visitCallback_version (s : DeltaSnapshot) (e : FileEntry) :
    (visitCallback s e).version = s.version := rfl

@[simp] theorem visitCallback_scan_data_iterator (s : DeltaSnapshot) (e : FileEntry) :
    (visitCallback s e).scan_data_iterator = s.scan_data_iterator := rfl

@[simp] theorem visitCallback_files_exhausted (s : DeltaSnapshot) (e : FileEntry) :
    (visitCallback s e).files_exhausted = s.files_exhausted := rfl

@[simp] theorem visitCallback_table_filters (s : DeltaSnapshot) (e : FileEntry) :
    (visitCallback s e).table_filters = s.table_filters := rfl

theorem visitCallback_resolved_files (s : DeltaSnapshot) (e : FileEntry) :
    (visitCallback s e).resolved_files =
      s.resolved_files ++ [resolveEntryPath s.rootPath e.path] := rfl

theorem visitBatch_fields (batch : List FileEntry) :
    ∀ s : DeltaSnapshot,
      (visitBatch s batch).rootPath = s.rootPath ∧
      (visitBatch s batch).names = s.names ∧
      (visitBatch s batch).snapshot = s.snapshot ∧
      (visitBatch s batch).initialized_snapshot = s.initialized_snapshot ∧
      (visitBatch s batch).initialized_scan = s.initialized_scan ∧
      (visitBatch s batch).version = s.version ∧
      (visitBatch s batch).scan_data_iterator = s.scan_data_iterator ∧
      (visitBatch s batch).files_exhausted = s.files_exhausted := by
  induction batch with
  | nil => intro s; exact ⟨rfl, rfl, rfl, rfl, rfl, rfl, rfl, rfl⟩
  | cons e rest ih =>
    intro s
    have hstep : visitBatch s (e :: rest) = visitBatch (visitCallback s e) rest := rfl
    rw [hstep]
    rcases ih (visitCallback s e) with ⟨h1, h2, h3, h4, h5, h6, h7, h8⟩
    simp [h1, h2, h3, h4, h5, h6, h7, h8]

theorem visitBatch_resolved_files (batch : List FileEntry) :
    ∀ s : DeltaSnapshot,
      (visitBatch s batch).resolved_files =
        s.resolved_files ++ batch.map (fun e => resolveEntryPath s.rootPath e.path) := by
  induction batch with
  | nil => intro s; simp [visitBatch]
  | cons e rest ih =>
    intro s
    have hstep : visitBatch s (e :: rest) = visitBatch (visitCallback s e) rest := rfl
    rw [hstep, ih (visitCallback s e)]
    simp [visitCallback_resolved_files]

theorem totalEntries_cons (batch : List FileEntry) (rest : List (List FileEntry)) :
    totalEntries (batch :: rest) = batch.length + totalEntries rest := by
  simp [totalEntries]

theorem getD_mem_of_lt {l : List String} {i : Nat} (h : i < l.length) :
    l.getD i strEmpty ∈ l := by
  rw [List.getD_eq_getElem _ _ h]
  exact List.getElem_mem h

theorem getFileLoop_spec (i : Nat) :
    ∀ (iter : List (List FileEntry)) (s : DeltaSnapshot),
      (getFileLoop i s iter).2.1.rootPath = s.rootPath ∧
      (getFileLoop i s iter).2.1.names = s.names ∧
      (getFileLoop i s iter).2.1.snapshot = s.snapshot ∧
      (getFileLoop i s iter).2.1.initialized_snapshot = s.initialized_snapshot ∧
      (getFileLoop i s iter).2.1.initialized_scan = s.initialized_scan ∧
      (getFileLoop i s iter).2.1.version = s.version ∧
      (totalEntries (getFileLoop i s iter).2.1.scan_data_iterator +
        (getFileLoop i s iter).2.1.resolved_files.length =
        totalEntries iter + s.resolved_files.length) ∧
      ((∀ p ∈ s.resolved_files, p ≠ strEmpty) →
       (∀ b ∈ iter, ∀ e ∈ b, resolveEntryPath s.rootPath e.path ≠ strEmpty) →
        ((∀ p ∈ (getFileLoop i s iter).2.1.resolved_files, p ≠ strEmpty) ∧
         (∀ b ∈ (getFileLoop i s iter).2.1.scan_data_iterator, ∀ e ∈ b,
            resolveEntryPath s.rootPath e.path ≠ strEmpty) ∧
         ((getFileLoop i s iter).1 = strEmpty →
            (getFileLoop i s iter).2.1.files_exhausted = true ∧
            (getFileLoop i s iter).2.1.resolved_files.length ≤ i) ∧
         ((getFileLoop i s iter).1 ≠ strEmpty →
            i < (getFileLoop i s iter).2.1.resolved_files.length))) := by
  intro iter
  induction iter with
  | nil =>
    intro s
    by_cases hlt : i < s.resolved_files.length
    · have hmemo : getFileLoop i s [] =
          (s.resolved_files.getD i strEmpty, { s with scan_data_iterator := [] }, 0) := by
        simp [getFileLoop, hlt]
      rw [hmemo]
      refine ⟨rfl, rfl, rfl, rfl, rfl, rfl, by simp [totalEntries], ?_⟩
      intro hres _
      refine ⟨hres, by simp, ?_, fun _ => hlt⟩
      intro habs
      exact absurd habs (hres _ (getD_mem_of_lt hlt))
    · have hx : getFileLoop i s [] =
          (strEmpty, { s with scan_data_iterator := [], files_exhausted := true }, 1) := by
        simp [getFileLoop, hlt]
      rw [hx]
      refine ⟨rfl, rfl, rfl, rfl, rfl, rfl, by simp [totalEntries], ?_⟩
      intro hres _
      exact ⟨hres, by simp, fun _ => ⟨rfl, Nat.le_of_not_lt hlt⟩,
        fun hcontra => absurd rfl hcontra⟩
  | cons batch rest ih =>
    intro s
    by_cases hlt : i < s.resolved_files.length
    · have hmemo : getFileLoop i s (batch :: rest) =
          (s.resolved_files.getD i strEmpty, { s with scan_data_iterator := batch :: rest }, 0) := by
        simp [getFileLoop, hlt]
      rw [hmemo]
      refine ⟨rfl, rfl, rfl, rfl, rfl, rfl, rfl, ?_⟩
      intro hres hiter
      refine ⟨hres, hiter, ?_, fun _ => hlt⟩
      intro habs
      exact absurd habs (hres _ (getD_mem_of_lt hlt))
    · have hstep : getFileLoop i s (batch :: rest) =
          ((getFileLoop i (visitBatch s batch) rest).1,
           (getFileLoop i (visitBatch s batch) rest).2.1,
           (getFileLoop i (visitBatch s batch) rest).2.2 + 1) := by
        simp [getFileLoop, hlt]
      rcases visitBatch_fields batch s with ⟨hb1, hb2, hb3, hb4, hb5, hb6, hb7, hb8⟩
      have hbres := visitBatch_resolved_files batch s
      rcases ih (visitBatch s batch) with ⟨ih1, ih2, ih3, ih4, ih5, ih6, ih7, ih8⟩
      refine ⟨?_, ?_, ?_, ?_, ?_, ?_, ?_, ?_⟩
      · rw [hstep]; exact ih1.trans hb1
      · rw [hstep]; exact ih2.trans hb2
      · rw [hstep]; exact ih3.trans hb3
      · rw [hstep]; exact ih4.trans hb4
      · rw [hstep]; exact ih5.trans hb5
      · rw [hstep]; exact ih6.trans hb6
      · rw [hstep]
        show totalEntries (getFileLoop i (visitBatch s batch) rest).2.1.scan_data_iterator +
          (getFileLoop i (visitBatch s batch) rest).2.1.resolved_files.length = _
        rw [ih7, hbres]
        simp [totalEntries_cons]
        omega
      · rw [hstep]
        intro hres hiter
        have hres' : ∀ p ∈ (visitBatch s batch).resolved_files, p ≠ strEmpty := by
          rw [hbres]
          intro p hp
          rcases List.mem_append.mp hp with hin | hin
          · exact hres _ hin
          · rcases List.mem_map.mp hin with ⟨e, he, rfl⟩
            exact hiter batch (List.mem_cons_self _ _) e he
        have hiter' : ∀ b ∈ rest, ∀ e ∈ b,
            resolveEntryPath (visitBatch s batch).rootPath e.path ≠ strEmpty := by
          rw [hb1]
          intro b hb e he
          exact hiter b (List.mem_cons_of_mem _ hb) e he
        rcases ih8 hres' hiter' with ⟨k1, k2, k3, k4⟩
        rw [hb1] at k2
        exact ⟨k1, k2, k3, k4⟩

theorem initPhase_fields (fresh : SharedKernelSnapshot) (iter : List (List FileEntry))
    (s : DeltaSnapshot) :
    (initPhase fresh iter s).rootPath = s.rootPath ∧
    (initPhase fresh iter s).names = s.names ∧
    (initPhase fresh iter s).resolved_files = s.resolved_files ∧
    (initPhase fresh iter s).metadata = s.metadata ∧
    (initPhase fresh iter s).files_exhausted = s.files_exhausted ∧
    (initPhase fresh iter s).initialized_snapshot = true ∧
    (initPhase fresh iter s).initialized_scan = true ∧
    (initPhase fresh iter s).scan_data_iterator =
      cond s.initialized_scan s.scan_data_iterator iter := by
  cases hsnap : s.initialized_snapshot <;> cases hscan : s.initialized_scan <;>
    simp [initPhase, initializeSnapshot, initializeScan, hsnap, hscan]

theorem initPhase_version (fresh : SharedKernelSnapshot) (iter : List (List FileEntry))
    (s : DeltaSnapshot) (h : s.initialized_scan = true) :
    (initPhase fresh iter s).version = s.version := by
  cases hsnap : s.initialized_snapshot <;>
    simp [initPhase, initializeSnapshot, h, hsnap]

theorem initPhase_snapshot (fresh : SharedKernelSnapshot) (iter : List (List FileEntry))
    (s : DeltaSnapshot) (k : SharedKernelSnapshot) (hk : s.snapshot = some k) :
    (initPhase fresh iter s).snapshot = some k := by
  cases hsnap : s.initialized_snapshot <;> cases hscan : s.initialized_scan <;>
    simp [initPhase, initializeSnapshot, initializeScan, hsnap, hscan, hk]

theorem initPhase_id (fresh : SharedKernelSnapshot) (iter : List (List FileEntry))
    (s : DeltaSnapshot) (h1 : s.initialized_snapshot = true) (h2 : s.initialized_scan = true) :
    initPhase fresh iter s = s := by
  simp [initPhase, h1, h2]

theorem getFileInternal_exhausted_short (fresh : SharedKernelSnapshot)
    (iter : List (List FileEntry)) (s : DeltaSnapshot) (i : Nat)
    (h1 : s.initialized_snapshot = true) (h2 : s.initialized_scan = true)
    (h3 : s.files_exhausted = true) (h4 : s.resolved_files.length ≤ i) :
    getFileInternal fresh iter s i = (strEmpty, s, 0) := by
  have hid := initPhase_id fresh iter s h1 h2
  have hnlt : ¬ i < s.resolved_files.length := Nat.not_lt.mpr h4
  simp [getFileInternal, hid, hnlt, h3]

theorem getFileInternal_spec (fresh : SharedKernelSnapshot) (iter : List (List FileEntry))
    (s : DeltaSnapshot) (i : Nat) (hne : pathsNonempty s iter) :
    (getFileInternal fresh iter s i).2.1.initialized_snapshot = true ∧
    (getFileInternal fresh iter s i).2.1.initialized_scan = true ∧
    (getFileInternal fresh iter s i).2.1.rootPath = s.rootPath ∧
    (∀ iter2, pathsNonempty (getFileInternal fresh iter s i).2.1 iter2) ∧
    ((getFileInternal fresh iter s i).1 = strEmpty →
      (getFileInternal fresh iter s i).2.1.files_exhausted = true ∧
      (getFileInternal fresh iter s i).2.1.resolved_files.length ≤ i) ∧
    ((getFileInternal fresh iter s i).1 ≠ strEmpty →
      i < (getFileInternal fresh iter s i).2.1.resolved_files.length) ∧
    (totalEntries (getFileInternal fresh iter s i).2.1.scan_data_iterator +
      (getFileInternal fresh iter s i).2.1.resolved_files.length =
      totalEntries (cond s.initialized_scan s.scan_data_iterator iter) +
        s.resolved_files.length) := by
  rcases initPhase_fields fresh iter s with ⟨p1, p2, p3, p4, p5, p6, p7, p8⟩
  rcases hne with ⟨hres0, hiter0⟩
  have hres2 : ∀ p ∈ (initPhase fresh iter s).resolved_files, p ≠ strEmpty := by
    rw [p3]; exact hres0
  have hiter2 : ∀ b ∈ (initPhase fresh iter s).scan_data_iterator, ∀ e ∈ b,
      resolveEntryPath (initPhase fresh iter s).rootPath e.path ≠ strEmpty := by
    rw [p8, p1]; exact hiter0
  by_cases hlt : i < (initPhase fresh iter s).resolved_files.length
  · have hval : getFileInternal fresh iter s i =
        ((initPhase fresh iter s).resolved_files.getD i strEmpty, initPhase fresh iter s, 0) := by
      simp [getFileInternal, hlt]
    rw [hval]
    refine ⟨p6, p7, p1, ?_, ?_, fun _ => hlt, by rw [p8, p3]⟩
    · intro iter2
      refine ⟨hres2, ?_⟩
      simp only [p7, cond_true]
      exact hiter2
    · intro habs
      exact absurd habs (hres2 _ (getD_mem_of_lt hlt))
  · by_cases hex : (initPhase fresh iter s).files_exhausted = true
    · have hval : getFileInternal fresh iter s i = (strEmpty, initPhase fresh iter s, 0) := by
        simp [getFileInternal, hlt, hex]
      rw [hval]
      refine ⟨p6, p7, p1, ?_, fun _ => ⟨hex, Nat.le_of_not_lt hlt⟩,
        fun hcontra => absurd rfl hcontra, by rw [p8, p3]⟩
      intro iter2
      refine ⟨hres2, ?_⟩
      simp only [p7, cond_true]
      exact hiter2
    · have hval : getFileInternal fresh iter s i =
          getFileLoop i { initPhase fresh iter s with scan_data_iterator := [] }
            (initPhase fresh iter s).scan_data_iterator := by
        simp [getFileInternal, hlt, hex]
      rcases getFileLoop_spec i (initPhase fresh iter s).scan_data_iterator
          { initPhase fresh iter s with scan_data_iterator := [] } with
        ⟨l1, l2, l3, l4, l5, l6, l7, l8⟩
      have hres3 : ∀ p ∈ ({ initPhase fresh iter s with
          scan_data_iterator := [] } : DeltaSnapshot).resolved_files, p ≠ strEmpty := hres2
      have hiter3 : ∀ b ∈ (initPhase fresh iter s).scan_data_iterator, ∀ e ∈ b,
          resolveEntryPath ({ initPhase fresh iter s with
            scan_data_iterator := [] } : DeltaSnapshot).rootPath e.path ≠ strEmpty := hiter2
      rcases l8 hres3 hiter3 with ⟨k1, k2, k3, k4⟩
      rw [hval]
      refine ⟨l4.trans p6, l5.trans p7, l1.trans p1, ?_, k3, k4, ?_⟩
      · intro iter2
        refine ⟨k1, ?_⟩
        have hscan : (getFileLoop i { initPhase fresh iter s with scan_data_iterator := [] }
            (initPhase fresh iter s).scan_data_iterator).2.1.initialized_scan = true :=
          l5.trans p7
        simp only [hscan, cond_true]
        have hroot : (getFileLoop i { initPhase fresh iter s with scan_data_iterator := [] }
            (initPhase fresh iter s).scan_data_iterator).2.1.rootPath =
            (initPhase fresh iter s).rootPath := l1
        rw [← hroot] at k2
        exact k2
      · rw [l7, p8]
        simp [p3]

/-- C2: once GetFile returns the empty string for index `i`, the exhausted
flag is set, and any later call with index `j ≥ i` (whatever the engine would
answer) returns the empty string, leaves the state untouched, and performs
zero pulls on the scan iterator. -/
theorem getFile_exhaustion_stable (fresh : SharedKernelSnapshot) (iter : List (List FileEntry))
    (fresh2 : SharedKernelSnapshot) (iter2 : List (List FileEntry))
    (s : DeltaSnapshot) (i j : Nat)
    (hne : pathsNonempty s iter) (hij : i ≤ j)
    (hempty : (getFileInternal fresh iter s i).1 = strEmpty) :
    (getFileInternal fresh iter s i).2.1.files_exhausted = true ∧
    getFileInternal fresh2 iter2 (getFileInternal fresh iter s i).2.1 j =
      (strEmpty, (getFileInternal fresh iter s i).2.1, 0) := by
  rcases getFileInternal_spec fresh iter s i hne with ⟨g1, g2, _, _, g5, _, _⟩
  rcases g5 hempty with ⟨hex, hlen⟩
  exact ⟨hex, getFileInternal_exhausted_short fresh2 iter2 _ j g1 g2 hex (le_trans hlen hij)⟩

/-- Witness for C2 at a concrete two-file snapshot state. -/
theorem getFile_exhaustion_stable_witness :
    (getFileInternal exampleKernel [] exampleSnapshotState 2).2.1.files_exhausted = true ∧
    getFileInternal exampleKernel [] (getFileInternal exampleKernel [] exampleSnapshotState 2).2.1 3 =
      (strEmpty, (getFileInternal exampleKernel [] exampleSnapshotState 2).2.1, 0) := by
  exact getFile_exhaustion_stable exampleKernel [] exampleKernel [] exampleSnapshotState 2 3
    (by decide) (by decide) (by decide)

theorem expandAllLoop_exhausts (fresh : SharedKernelSnapshot) (iter : List (List FileEntry)) :
    ∀ (fuel : Nat) (s : DeltaSnapshot) (i : Nat),
      pathsNonempty s iter →
      i ≤ totalEntries (cond s.initialized_scan s.scan_data_iterator iter) +
        s.resolved_files.length →
      totalEntries (cond s.initialized_scan s.scan_data_iterator iter) +
        s.resolved_files.length - i < fuel →
      (expandAllLoop fresh iter fuel s i).files_exhausted = true := by
  intro fuel
  induction fuel with
  | zero => intro s i _ hle hlt; omega
  | succ n ih =>
    intro s i hne hle hlt
    rcases getFileInternal_spec fresh iter s i hne with ⟨g1, g2, _, g4, g5, g6, g7⟩
    by_cases hr : (getFileInternal fresh iter s i).1 = strEmpty
    · have hval : expandAllLoop fresh iter (n + 1) s i = (getFileInternal fresh iter s i).2.1 := by
        simp [expandAllLoop, hr]
      rw [hval]
      exact (g5 hr).1
    · have hval : expandAllLoop fresh iter (n + 1) s i =
          expandAllLoop fresh iter n (getFileInternal fresh iter s i).2.1 (i + 1) := by
        simp [expandAllLoop, hr]
      rw [hval]
      have hlt2 : i < (getFileInternal fresh iter s i).2.1.resolved_files.length := g6 hr
      have hmu : totalEntries (cond (getFileInternal fresh iter s i).2.1.initialized_scan
          (getFileInternal fresh iter s i).2.1.scan_data_iterator iter) +
          (getFileInternal fresh iter s i).2.1.resolved_files.length =
          totalEntries (cond s.initialized_scan s.scan_data_iterator iter) +
            s.resolved_files.length := by
        rw [g2]
        simpa using g7
      exact ih (getFileInternal fresh iter s i).2.1 (i + 1) (g4 iter) (by omega) (by omega)

theorem sumCardinalities_cons (m : DeltaFileMetaData) (rest : List DeltaFileMetaData) :
    sumCardinalities (m :: rest) = m.cardinality.getD 0 + sumCardinalities rest := by
  simp [sumCardinalities]

theorem accumulateFold_eq_sum (md : List DeltaFileMetaData) :
    ∀ acc : Nat, acc + sumCardinalities md < 2 ^ 64 →
      List.foldl (fun acc m => match m.cardinality with
        | some c => (acc + c) % 2 ^ 64
        | none => acc) acc md = acc + sumCardinalities md := by
  induction md with
  | nil => intro acc _; simp [sumCardinalities]
  | cons m rest ih =>
    intro acc h
    rw [List.foldl_cons]
    have hs := sumCardinalities_cons m rest
    cases hc : m.cardinality with
    | none =>
      rw [hc] at hs
      simp only [Option.getD_none, Nat.zero_add] at hs
      simp only [hc]
      rw [ih acc (by omega)]
      omega
    | some c =>
      rw [hc] at hs
      simp only [Option.getD_some] at hs
      simp only [hc]
      have hmod : (acc + c) % 2 ^ 64 = acc + c := Nat.mod_eq_of_lt (by omega)
      rw [hmod, ih (acc + c) (by omega)]
      omega

theorem haveAnyStats_eq_false (md : List DeltaFileMetaData)
    (h : ∀ m ∈ md, m.cardinality = none) : haveAnyStats md = false := by
  simp only [haveAnyStats, List.any_eq_false]
  intro m hm
  simp [h m hm]

theorem haveAnyStats_eq_true (md : List DeltaFileMetaData)
    (h : ∃ m ∈ md, m.cardinality ≠ none) : haveAnyStats md = true := by
  rcases h with ⟨m, hm, hc⟩
  simp only [haveAnyStats, List.any_eq_true]
  exact ⟨m, hm, Option.isSome_iff_ne_none.mpr hc⟩

theorem getCardinality_state (fresh : SharedKernelSnapshot) (iter : List (List FileEntry))
    (s : DeltaSnapshot) :
    (getCardinality fresh iter s).2 = (getTotalFileCount fresh iter s).2 := by
  unfold getCardinality
  by_cases h0 : (getTotalFileCount fresh iter s).1 = 0
  · simp [h0]
  · by_cases h1 : haveAnyStats (getTotalFileCount fresh iter s).2.metadata = true
    · simp [h0, h1]
    · simp [h0, h1]

theorem getTotalFileCount_exhausts (fresh : SharedKernelSnapshot)
    (iter : List (List FileEntry)) (s : DeltaSnapshot) (hne : pathsNonempty s iter) :
    (getTotalFileCount fresh iter s).2.files_exhausted = true := by
  show (expandAllLoop fresh iter (snapshotFuel s iter) s
    s.resolved_files.length).files_exhausted = true
  apply expandAllLoop_exhausts fresh iter (snapshotFuel s iter) s s.resolved_files.length hne
  · omega
  · show totalEntries (cond s.initialized_scan s.scan_data_iterator iter) +
      s.resolved_files.length - s.resolved_files.length <
        totalEntries (cond s.initialized_scan s.scan_data_iterator iter) + 1
    omega

theorem getCardinality_first (fresh : SharedKernelSnapshot) (iter : List (List FileEntry))
    (s : DeltaSnapshot) :
    getCardinality fresh iter s =
      (if (getTotalFileCount fresh iter s).1 = 0 then some (0, 0)
       else if haveAnyStats (getTotalFileCount fresh iter s).2.metadata then
         some (accumulateCardinality (getTotalFileCount fresh iter s).2.metadata,
               accumulateCardinality (getTotalFileCount fresh iter s).2.metadata)
       else none, (getTotalFileCount fresh iter s).2) := by
  unfold getCardinality
  by_cases h0 : (getTotalFileCount fresh iter s).1 = 0
  · simp [h0]
  · by_cases h1 : haveAnyStats (getTotalFileCount fresh iter s).2.metadata = true
    · simp [h0, h1]
    · simp [h0, h1]

/-- C3 (amended): GetCardinality forces full expansion (the returned state is
exhausted); if the expanded file list is empty it returns exact statistics
(0, 0); on a non-empty list it returns no statistics when no file carries a
usable row-count estimate, and otherwise returns the sum of the per-file
estimates as both the estimated and the exact cardinality. -/
theorem getCardinality_spec (fresh : SharedKernelSnapshot) (iter : List (List FileEntry))
    (s : DeltaSnapshot) (hne : pathsNonempty s iter) :
    (getCardinality fresh iter s).2.files_exhausted = true ∧
    ((getCardinality fresh iter s).2.resolved_files.length = 0 →
      (getCardinality fresh iter s).1 = some (0, 0)) ∧
    ((getCardinality fresh iter s).2.resolved_files.length ≠ 0 →
      (∀ m ∈ (getCardinality fresh iter s).2.metadata, m.cardinality = none) →
      (getCardinality fresh iter s).1 = none) ∧
    ((getCardinality fresh iter s).2.resolved_files.length ≠ 0 →
      (∃ m ∈ (getCardinality fresh iter s).2.metadata, m.cardinality ≠ none) →
      sumCardinalities (getCardinality fresh iter s).2.metadata < 2 ^ 64 →
      (getCardinality fresh iter s).1 =
        some (sumCardinalities (getCardinality fresh iter s).2.metadata,
              sumCardinalities (getCardinality fresh iter s).2.metadata)) := by
  have hstate := getCardinality_state fresh iter s
  have hfirst := getCardinality_first fresh iter s
  have hcount : (getTotalFileCount fresh iter s).1 =
      (getTotalFileCount fresh iter s).2.resolved_files.length := rfl
  refine ⟨?_, ?_, ?_, ?_⟩
  · rw [hstate]
    exact getTotalFileCount_exhausts fresh iter s hne
  · intro hzero
    rw [hstate] at hzero
    have h0 : (getTotalFileCount fresh iter s).1 = 0 := by rw [hcount]; exact hzero
    rw [hfirst]
    simp [h0]
  · intro hnonzero hall
    rw [hstate] at hnonzero hall
    have h0 : ¬ (getTotalFileCount fresh iter s).1 = 0 := by rw [hcount]; exact hnonzero
    have hany : haveAnyStats (getTotalFileCount fresh iter s).2.metadata = false :=
      haveAnyStats_eq_false _ hall
    rw [hfirst]
    simp [h0, hany]
  · intro hnonzero hex hsum
    rw [hstate] at hnonzero hex
    rw [hstate] at hsum
    have h0 : ¬ (getTotalFileCount fresh iter s).1 = 0 := by rw [hcount]; exact hnonzero
    have hany : haveAnyStats (getTotalFileCount fresh iter s).2.metadata = true :=
      haveAnyStats_eq_true _ hex
    have hacc : accumulateCardinality (getTotalFileCount fresh iter s).2.metadata =
        sumCardinalities (getTotalFileCount fresh iter s).2.metadata := by
      have := accumulateFold_eq_sum (getTotalFileCount fresh iter s).2.metadata 0
        (by omega)
      simpa [accumulateCardinality] using this
    rw [hfirst]
    simp only [h0, hany, if_false, if_true, hacc, hstate]

/-- C3 counterexample: a snapshot whose expansion yields zero files — so no
file carries a usable row-count estimate — makes GetCardinality return exact
statistics (0, 0), not the unknown result the claim demands. -/
theorem getCardinality_empty_counterexample :
    (getCardinality exampleKernel [] exampleEmptySnapshotState).1 = some (0, 0) ∧
    (getCardinality exampleKernel [] exampleEmptySnapshotState).2.metadata = [] := by
  exact ⟨by decide, by decide⟩

/-- Witness for C3 (amended) at a concrete two-file snapshot with estimates
3 and 4. -/
theorem getCardinality_spec_witness :
    (getCardinality exampleKernel [] exampleSnapshotState).1 = some (7, 7) := by
  have h := getCardinality_spec exampleKernel [] exampleSnapshotState (by decide)
  have hres := h.2.2.2 (by decide) (by decide) (by decide)
  exact hres.trans (by decide)

theorem snapshotInv_visitCallback (s : DeltaSnapshot) (e : FileEntry)
    (hinv : SnapshotInv s) (hscan : s.initialized_scan = true) :
    SnapshotInv (visitCallback s e) := by
  rcases hinv with ⟨h1, h2, _⟩
  refine ⟨?_, ?_, ?_⟩
  · simp [visitCallback, h1]
  · intro k hk
    have hklen : k < s.metadata.length + 1 := by
      have : (visitCallback s e).metadata = s.metadata ++ [_] := rfl
      rw [this, List.length_append] at hk
      simpa using hk
    by_cases hlt : k < s.metadata.length
    · have hget : (visitCallback s e).metadata.get ⟨k, hk⟩ = s.metadata.get ⟨k, hlt⟩ := by
        show (s.metadata ++ [_]).get ⟨k, hk⟩ = _
        rw [List.get_eq_getElem, List.get_eq_getElem]
        exact List.getElem_append_left hlt
      rw [hget]
      rcases h2 k hlt with ⟨ha, hb⟩
      exact ⟨ha, by rw [hb]; rfl⟩
    · have hk0 : k = s.metadata.length := by omega
      subst hk0
      have hget : (visitCallback s e).metadata.get ⟨s.metadata.length, hk⟩ =
          { delta_snapshot_version := s.version
            file_number := s.resolved_files.length + 1 - 1
            cardinality := e.num_records
            selection_vector := e.dv
            partition_map := buildConstantMap s.names e.partition_values } := by
        show (s.metadata ++ [_]).get ⟨s.metadata.length, hk⟩ = _
        rw [List.get_eq_getElem]
        exact List.getElem_concat_length s.metadata _ s.metadata.length rfl hk
      rw [hget]
      refine ⟨?_, rfl⟩
      show s.resolved_files.length + 1 - 1 = s.metadata.length
      omega
  · intro hfalse
    have : (visitCallback s e).initialized_scan = true := by
      rw [visitCallback_initialized_scan]; exact hscan
    rw [this] at hfalse
    cases hfalse

theorem snapshotInv_visitBatch (batch : List FileEntry) :
    ∀ s : DeltaSnapshot, SnapshotInv s → s.initialized_scan = true →
      SnapshotInv (visitBatch s batch) := by
  induction batch with
  | nil => intro s hinv _; exact hinv
  | cons e rest ih =>
    intro s hinv hscan
    have hstep : visitBatch s (e :: rest) = visitBatch (visitCallback s e) rest := rfl
    rw [hstep]
    exact ih (visitCallback s e) (snapshotInv_visitCallback s e hinv hscan)
      ((visitCallback_initialized_scan s e).trans hscan)

theorem snapshotInv_copyState (s t : DeltaSnapshot) (hinv : SnapshotInv s)
    (hres : t.resolved_files = s.resolved_files) (hmeta : t.metadata = s.metadata)
    (hver : t.version = s.version) (hscan : t.initialized_scan = true) :
    SnapshotInv t := by
  rcases hinv with ⟨h1, h2, _⟩
  refine ⟨?_, ?_, ?_⟩
  · rw [hres, hmeta]; exact h1
  · intro k hk
    have hk' : k < s.metadata.length := by rw [hmeta] at hk; exact hk
    have hget : t.metadata.get ⟨k, hk⟩ = s.metadata.get ⟨k, hk'⟩ := by
      rw [List.get_eq_getElem, List.get_eq_getElem]
      exact List.getElem_of_eq hmeta hk
    rw [hget, hver]
    exact h2 k hk'
  · intro hfalse; rw [hscan] at hfalse; cases hfalse

theorem snapshotInv_getFileLoop (i : Nat) :
    ∀ (iter : List (List FileEntry)) (s : DeltaSnapshot),
      SnapshotInv s → s.initialized_scan = true →
      SnapshotInv (getFileLoop i s iter).2.1 := by
  intro iter
  induction iter with
  | nil =>
    intro s hinv hscan
    by_cases hlt : i < s.resolved_files.length
    · have hval : (getFileLoop i s []).2.1 = { s with scan_data_iterator := [] } := by
        simp [getFileLoop, hlt]
      rw [hval]
      exact snapshotInv_copyState s _ hinv rfl rfl rfl hscan
    · have hval : (getFileLoop i s []).2.1 =
          { s with scan_data_iterator := [], files_exhausted := true } := by
        simp [getFileLoop, hlt]
      rw [hval]
      exact snapshotInv_copyState s _ hinv rfl rfl rfl hscan
  | cons batch rest ih =>
    intro s hinv hscan
    by_cases hlt : i < s.resolved_files.length
    · have hval : (getFileLoop i s (batch :: rest)).2.1 =
          { s with scan_data_iterator := batch :: rest } := by
        simp [getFileLoop, hlt]
      rw [hval]
      exact snapshotInv_copyState s _ hinv rfl rfl rfl hscan
    · have hval : (getFileLoop i s (batch :: rest)).2.1 =
          (getFileLoop i (visitBatch s batch) rest).2.1 := by
        simp [getFileLoop, hlt]
      rw [hval]
      rcases visitBatch_fields batch s with ⟨_, _, _, _, hb5, _, _, _⟩
      exact ih (visitBatch s batch) (snapshotInv_visitBatch batch s hinv hscan)
        (hb5.trans hscan)

theorem snapshotInv_initPhase (fresh : SharedKernelSnapshot) (iter : List (List FileEntry))
    (s : DeltaSnapshot) (hinv : SnapshotInv s) :
    SnapshotInv (initPhase fresh iter s) := by
  rcases hinv with ⟨h1, h2, h3⟩
  rcases initPhase_fields fresh iter s with ⟨_, _, p3, p4, _, _, p7, _⟩
  by_cases hscan : s.initialized_scan = true
  · have hver := initPhase_version fresh iter s hscan
    exact snapshotInv_copyState s _ ⟨h1, h2, h3⟩ p3 p4 hver p7
  · have hmeta : s.metadata = [] := h3 (by
      cases hb : s.initialized_scan
      · rfl
      · exact absurd hb hscan)
    refine ⟨?_, ?_, ?_⟩
    · rw [p3, p4, h1]
    · intro k hk
      rw [p4, hmeta] at hk
      cases hk
    · intro hfalse; rw [p7] at hfalse; cases hfalse

theorem snapshotInv_getFileInternal (fresh : SharedKernelSnapshot)
    (iter : List (List FileEntry)) (s : DeltaSnapshot) (i : Nat) (hinv : SnapshotInv s) :
    SnapshotInv (getFileInternal fresh iter s i).2.1 := by
  rcases initPhase_fields fresh iter s with ⟨_, _, _, _, _, _, p7, _⟩
  have hinv2 := snapshotInv_initPhase fresh iter s hinv
  by_cases hlt : i < (initPhase fresh iter s).resolved_files.length
  · have hval : (getFileInternal fresh iter s i).2.1 = initPhase fresh iter s := by
      simp [getFileInternal, hlt]
    rw [hval]; exact hinv2
  · by_cases hex : (initPhase fresh iter s).files_exhausted = true
    · have hval : (getFileInternal fresh iter s i).2.1 = initPhase fresh iter s := by
        simp [getFileInternal, hlt, hex]
      rw [hval]; exact hinv2
    · have hval : (getFileInternal fresh iter s i).2.1 =
          (getFileLoop i { initPhase fresh iter s with scan_data_iterator := [] }
            (initPhase fresh iter s).scan_data_iterator).2.1 := by
        simp [getFileInternal, hlt, hex]
      rw [hval]
      apply snapshotInv_getFileLoop
      · exact snapshotInv_copyState (initPhase fresh iter s) _ hinv2 rfl rfl rfl p7
      · exact p7

theorem snapshotInv_expandAllLoop (fresh : SharedKernelSnapshot)
    (iter : List (List FileEntry)) :
    ∀ (fuel : Nat) (s : DeltaSnapshot) (i : Nat), SnapshotInv s →
      SnapshotInv (expandAllLoop fresh iter fuel s i) := by
  intro fuel
  induction fuel with
  | zero => intro s i hinv; exact hinv
  | succ n ih =>
    intro s i hinv
    by_cases hr : (getFileInternal fresh iter s i).1 = strEmpty
    · have hval : expandAllLoop fresh iter (n + 1) s i = (getFileInternal fresh iter s i).2.1 := by
        simp [expandAllLoop, hr]
      rw [hval]
      exact snapshotInv_getFileInternal fresh iter s i hinv
    · have hval : expandAllLoop fresh iter (n + 1) s i =
          expandAllLoop fresh iter n (getFileInternal fresh iter s i).2.1 (i + 1) := by
        simp [expandAllLoop, hr]
      rw [hval]
      exact ih _ _ (snapshotInv_getFileInternal fresh iter s i hinv)

/-- C9: the discovery invariant — equal lengths of the resolved-path and
metadata lists, `file_number = i` for the entry at ordinal `i`, and the
pinned snapshot version in every entry — is preserved by the discovery
callback and by GetFile, GetAllFiles, and GetTotalFileCount. -/
theorem snapshot_discovery_invariant (fresh : SharedKernelSnapshot)
    (iter : List (List FileEntry)) (s : DeltaSnapshot) (e : FileEntry) (i : Nat)
    (hinv : SnapshotInv s) :
    (s.initialized_scan = true → SnapshotInv (visitCallback s e)) ∧
    SnapshotInv (getFileInternal fresh iter s i).2.1 ∧
    SnapshotInv (DeltaSnapshot.getAllFiles fresh iter s).2 ∧
    SnapshotInv (getTotalFileCount fresh iter s).2 := by
  refine ⟨fun hscan => snapshotInv_visitCallback s e hinv hscan,
    snapshotInv_getFileInternal fresh iter s i hinv, ?_, ?_⟩
  · show SnapshotInv (expandAllLoop fresh iter (snapshotFuel s iter) s
      s.resolved_files.length)
    exact snapshotInv_expandAllLoop fresh iter _ s _ hinv
  · show SnapshotInv (expandAllLoop fresh iter (snapshotFuel s iter) s
      s.resolved_files.length)
    exact snapshotInv_expandAllLoop fresh iter _ s _ hinv

/-- Witness for C9 at a concrete snapshot state and file entry. -/
theorem snapshot_discovery_invariant_witness :
    SnapshotInv (getTotalFileCount exampleKernel [] exampleSnapshotState).2 := by
  have h := snapshot_discovery_invariant exampleKernel [] exampleSnapshotState
    exampleEntryA 0 (by decide)
  exact h.2.2.2

theorem getFileInternal_snapshot (fresh : SharedKernelSnapshot) (iter : List (List FileEntry))
    (s : DeltaSnapshot) (i : Nat) (k : SharedKernelSnapshot) (hk : s.snapshot = some k) :
    (getFileInternal fresh iter s i).2.1.snapshot = some k := by
  have hip := initPhase_snapshot fresh iter s k hk
  by_cases hlt : i < (initPhase fresh iter s).resolved_files.length
  · have hval : (getFileInternal fresh iter s i).2.1 = initPhase fresh iter s := by
      simp [getFileInternal, hlt]
    rw [hval]; exact hip
  · by_cases hex : (initPhase fresh iter s).files_exhausted = true
    · have hval : (getFileInternal fresh iter s i).2.1 = initPhase fresh iter s := by
        simp [getFileInternal, hlt, hex]
      rw [hval]; exact hip
    · have hval : (getFileInternal fresh iter s i).2.1 =
          (getFileLoop i { initPhase fresh iter s with scan_data_iterator := [] }
            (initPhase fresh iter s).scan_data_iterator).2.1 := by
        simp [getFileInternal, hlt, hex]
      rcases getFileLoop_spec i (initPhase fresh iter s).scan_data_iterator
          { initPhase fresh iter s with scan_data_iterator := [] } with
        ⟨_, _, l3, _, _, _, _, _⟩
      rw [hval, l3]
      exact hip

theorem expandAllLoop_snapshot (fresh : SharedKernelSnapshot) (iter : List (List FileEntry))
    (k : SharedKernelSnapshot) :
    ∀ (fuel : Nat) (s : DeltaSnapshot) (i : Nat), s.snapshot = some k →
      (expandAllLoop fresh iter fuel s i).snapshot = some k := by
  intro fuel
  induction fuel with
  | zero => intro s i hk; exact hk
  | succ n ih =>
    intro s i hk
    by_cases hr : (getFileInternal fresh iter s i).1 = strEmpty
    · have hval : expandAllLoop fresh iter (n + 1) s i = (getFileInternal fresh iter s i).2.1 := by
        simp [expandAllLoop, hr]
      rw [hval]
      exact getFileInternal_snapshot fresh iter s i k hk
    · have hval : expandAllLoop fresh iter (n + 1) s i =
          expandAllLoop fresh iter n (getFileInternal fresh iter s i).2.1 (i + 1) := by
        simp [expandAllLoop, hr]
      rw [hval]
      exact ih _ _ (getFileInternal_snapshot fresh iter s i k hk)

theorem getTotalFileCount_snapshot (fresh : SharedKernelSnapshot) (iter : List (List FileEntry))
    (s : DeltaSnapshot) (k : SharedKernelSnapshot) (hk : s.snapshot = some k) :
    (getTotalFileCount fresh iter s).2.snapshot = some k := by
  show (expandAllLoop fresh iter (snapshotFuel s iter) s
    s.resolved_files.length).snapshot = some k
  exact expandAllLoop_snapshot fresh iter k _ s _ hk

theorem checkFilteredFiles_fork (new_total : Nat) (info : ExtraInfo)
    (filtered parent : DeltaSnapshot) (fork parent2 : DeltaSnapshot) (info2 : ExtraInfo)
    (h : checkFilteredFiles new_total info filtered parent = .ok (some fork, parent2, info2)) :
    fork = filtered := by
  unfold checkFilteredFiles at h
  cases hff : info.filtered_files with
  | none =>
    rw [hff] at h
    simp at h
    exact h.1.symm
  | some f =>
    rw [hff] at h
    by_cases hle : new_total ≤ f
    · simp [hle] at h
      exact h.1.symm
    · simp [hle] at h

/-- C7: every fork produced by a pushdown with a non-empty predicate list
carries the parent's already-opened snapshot handle (the very same handle
value, so initializing the fork installs no new snapshot and re-parses no
log), while the constructed fork starts with an empty file store and an
un-started discovery cursor of its own. -/
theorem complexFilterPushdown_fork_shares_snapshot (cwd : String)
    (freshP freshF fresh2 : SharedKernelSnapshot) (iterP iterF : List (List FileEntry))
    (parent : DeltaSnapshot) (filters : List String) (filterstmp : List (Nat × String))
    (profilerEnabled settingPresent settingValue : Bool) (info : ExtraInfo)
    (k : SharedKernelSnapshot)
    (hfilters : filters ≠ []) (hk : parent.snapshot = some k) :
    (makeFilteredList cwd parent filterstmp).snapshot = some k ∧
    (makeFilteredList cwd parent filterstmp).resolved_files = [] ∧
    (makeFilteredList cwd parent filterstmp).metadata = [] ∧
    (makeFilteredList cwd parent filterstmp).initialized_snapshot = false ∧
    (makeFilteredList cwd parent filterstmp).initialized_scan = false ∧
    (makeFilteredList cwd parent filterstmp).files_exhausted = false ∧
    (makeFilteredList cwd parent filterstmp).table_filters = filterstmp ∧
    (initializeSnapshot fresh2 (makeFilteredList cwd parent filterstmp)).snapshot = some k ∧
    (∀ (fork parent2 : DeltaSnapshot) (info2 : ExtraInfo),
      complexFilterPushdown cwd freshP iterP freshF iterF parent filters filterstmp
        profilerEnabled settingPresent settingValue info = .ok (some fork, parent2, info2) →
      fork.snapshot = some k) := by
  have hmk : (makeFilteredList cwd parent filterstmp).snapshot = some k := by
    simp [makeFilteredList, freshDeltaSnapshot, hk]
  have hfe : filters.isEmpty = false := by
    cases filters with
    | nil => exact absurd rfl hfilters
    | cons a l => rfl
  refine ⟨hmk, rfl, rfl, rfl, rfl, rfl, rfl, ?_, ?_⟩
  · simp [initializeSnapshot, hmk]
  · intro fork parent2 info2 h
    unfold complexFilterPushdown at h
    rw [hfe] at h
    simp only [Bool.false_eq_true, if_false] at h
    cases hprof : profilerEnabled with
    | false =>
      rw [hprof] at h
      simp only [Bool.false_eq_true, if_false] at h
      simp at h
      rw [← h.1]
      exact hmk
    | true =>
      rw [hprof] at h
      simp only [if_true] at h
      cases hsp : settingPresent with
      | false =>
        rw [hsp] at h
        simp at h
      | true =>
        rw [hsp] at h
        simp only [Bool.true_eq_false, if_false] at h
        cases hsv : settingValue with
        | false =>
          rw [hsv] at h
          simp only [Bool.false_eq_true, if_false] at h
          simp at h
          rw [← h.1]
          exact hmk
        | true =>
          rw [hsv] at h
          simp only [if_true] at h
          have hforksnap : (getTotalFileCount freshF iterF
              (makeFilteredList cwd parent filterstmp)).2.snapshot = some k :=
            getTotalFileCount_snapshot freshF iterF _ k hmk
          have htfeq : ∀ (c : Prop) (inst : Decidable c) (x : String),
              (if c then { info with file_filters := x } else info).total_files =
                info.total_files := by
            intro c inst x
            by_cases hc : c
            · simp [hc]
            · simp [hc]
          rw [htfeq] at h
          cases htf : info.total_files with
          | none =>
            rw [htf] at h
            have := checkFilteredFiles_fork _ _ _ _ _ _ _ h
            rw [this]
            exact hforksnap
          | some t =>
            rw [htf] at h
            by_cases hlt : t < (getTotalFileCount freshP iterP parent).1
            · simp only [hlt, if_true] at h
              simp at h
            · simp only [hlt, if_false] at h
              have := checkFilteredFiles_fork _ _ _ _ _ _ _ h
              rw [this]
              exact hforksnap

/-- Witness for C7 at a concrete parent snapshot and filter list. -/
theorem complexFilterPushdown_fork_witness :
    (makeFilteredList strEmpty exampleSnapshotState exampleForkFilters).snapshot =
      some exampleKernel ∧
    (makeFilteredList strEmpty exampleSnapshotState exampleForkFilters).resolved_files = [] ∧
    (initializeSnapshot exampleKernel
      (makeFilteredList strEmpty exampleSnapshotState exampleForkFilters)).snapshot =
      some exampleKernel := by
  have h := complexFilterPushdown_fork_shares_snapshot strEmpty exampleKernel exampleKernel
    exampleKernel [] [] exampleSnapshotState [strSlash] exampleForkFilters
    false false false { total_files := none, filtered_files := none, file_filters := strEmpty }
    exampleKernel (by decide) (by decide)
  exact ⟨h.1, h.2.1, h.2.2.2.2.2.2.2.1⟩

theorem plusToSpace_of_hex (c : Char) (h : isHexDigit c = true) : plusToSpace c = c := by
  unfold plusToSpace
  by_cases hc : c = '+'
  · subst hc
    simp [isHexDigit] at h
  · simp [hc]

theorem urlDecodeLoop_eq_spec :
    ∀ (n : Nat) (l : List Char), l.length ≤ n → wellFormedEscapes l = true →
      urlDecodeLoop (l.map plusToSpace) = specUrlDecode l := by
  intro n
  induction n with
  | zero =>
    intro l hl _
    have : l = [] := List.eq_nil_of_length_eq_zero (Nat.le_zero.mp hl)
    subst this
    rfl
  | succ n ih =>
    intro l hl hwf
    match l with
    | [] => rfl
    | c :: rest =>
      by_cases hc : c = '%'
      · subst hc
        match rest with
        | [] => simp [wellFormedEscapes] at hwf
        | [a] => simp [wellFormedEscapes] at hwf
        | a :: b :: rest2 =>
          have hwf' : (isHexDigit a = true ∧ isHexDigit b = true) ∧
              wellFormedEscapes rest2 = true := by
            simpa [wellFormedEscapes] using hwf
          rcases hwf' with ⟨⟨ha, hb⟩, hrest⟩
          have hlen : rest2.length ≤ n := by simp at hl; omega
          have hih := ih rest2 hlen hrest
          show urlDecodeLoop (plusToSpace '%' :: plusToSpace a :: plusToSpace b ::
            rest2.map plusToSpace) = specUrlDecode ('%' :: a :: b :: rest2)
          rw [plusToSpace_of_hex a ha, plusToSpace_of_hex b hb]
          simp [urlDecodeLoop, specUrlDecode, plusToSpace, hih]
      · by_cases hplus : c = '+'
        · subst hplus
          have hwfr : wellFormedEscapes rest = true := by
            rw [wellFormedEscapes.eq_def] at hwf
            simpa using hwf
          have hlen : rest.length ≤ n := by simp at hl; omega
          show urlDecodeLoop (plusToSpace '+' :: rest.map plusToSpace) =
            specUrlDecode ('+' :: rest)
          rw [urlDecodeLoop.eq_def, specUrlDecode.eq_def]
          simp [plusToSpace, ih rest hlen hwfr]
        · have hwfr : wellFormedEscapes rest = true := by
            rw [wellFormedEscapes.eq_def] at hwf
            simpa [hc] using hwf
          have hlen : rest.length ≤ n := by simp at hl; omega
          show urlDecodeLoop (plusToSpace c :: rest.map plusToSpace) =
            specUrlDecode (c :: rest)
          have hpc : plusToSpace c = c := by simp [plusToSpace, hplus]
          rw [hpc, urlDecodeLoop.eq_def, specUrlDecode.eq_def]
          simp [hc, hplus, ih rest hlen hwfr]

/-- C10: the path recorded for every visited file is the snapshot root
right-trimmed of trailing slashes, joined with the engine-supplied relative
path, then URL-decoded — every plus becomes a space and every two-hex-digit
percent escape becomes its byte — and a leading file scheme is stripped. -/
theorem visitCallback_resolved_path (s : DeltaSnapshot) (e : FileEntry)
    (hwf : wellFormedEscapes (RTrimSlash s.rootPath ++ strSlash ++ e.path).data = true) :
    (visitCallback s e).resolved_files = s.resolved_files ++
      [ToDuckDBPath (String.mk (specUrlDecode
        (RTrimSlash s.rootPath ++ strSlash ++ e.path).data))] := by
  rw [visitCallback_resolved_files]
  have hdec : url_decode (RTrimSlash s.rootPath ++ strSlash ++ e.path) =
      String.mk (specUrlDecode (RTrimSlash s.rootPath ++ strSlash ++ e.path).data) := by
    unfold url_decode
    rw [urlDecodeLoop_eq_spec (RTrimSlash s.rootPath ++ strSlash ++ e.path).data.length _
      (le_refl _) hwf]
  simp only [resolveEntryPath, hdec]

/-- Witness for C10 at a concrete root and an escaped relative path. -/
theorem visitCallback_resolved_path_witness :
    (visitCallback exampleSnapshotState exampleEntryA).resolved_files =
      exampleSnapshotState.resolved_files ++
        [ToDuckDBPath (String.mk (specUrlDecode
          (RTrimSlash exampleSnapshotState.rootPath ++ strSlash ++
            exampleEntryA.path).data))] :=
  visitCallback_resolved_path exampleSnapshotState exampleEntryA (by decide)

theorem partitionConstantsLoop_mem (global_columns : List MFRColumnDefinition)
    (partition_map : List (String × String)) :
    ∀ (ids : List Nat) (i0 j col_id : Nat) (v : String),
      ids.get? j = some col_id →
      IsRowIdColumnId col_id = false →
      ciLookup partition_map (global_columns.getD col_id defaultColumnDef).name = some v →
      (i0 + j,
        if (global_columns.getD col_id defaultColumnDef).type == LType.blob then
          DValue.blobRaw v
        else DValue.defaultCastAs v (global_columns.getD col_id defaultColumnDef).type) ∈
        partitionConstantsLoop global_columns partition_map i0 ids := by
  intro ids
  induction ids with
  | nil => intro i0 j cid v hj _ _; cases hj
  | cons c rest ih =>
    intro i0 j cid v hj hrow hlook
    cases j with
    | zero =>
      have hc : c = cid := by
        have := hj
        simp [List.get?_cons_zero] at this
        exact this
      subst hc
      unfold partitionConstantsLoop
      rw [hrow]
      simp only [Bool.false_eq_true, if_false, hlook]
      exact List.mem_cons_self _ _
    | succ j' =>
      have hj' : rest.get? j' = some cid := by
        simpa [List.get?_cons_succ] using hj
      have hmem := ih (i0 + 1) j' cid v hj' hrow hlook
      have harith : i0 + 1 + j' = i0 + (j' + 1) := by omega
      rw [harith] at hmem
      unfold partitionConstantsLoop
      by_cases hrc : IsRowIdColumnId c = true
      · rw [hrc]
        simpa using hmem
      · have hrc' : IsRowIdColumnId c = false := by
          cases hb : IsRowIdColumnId c
          · rfl
          · exact absurd hb hrc
        rw [hrc']
        simp only [Bool.false_eq_true, if_false]
        cases hl : ciLookup partition_map (global_columns.getD c defaultColumnDef).name with
        | none => simpa using hmem
        | some w => exact List.mem_cons_of_mem _ hmem

theorem finalizeBindDelta_column_mapping (delta_file_number_opt : Bool)
    (delta_file_number_idx : Nat) (global_columns : List MFRColumnDefinition)
    (global_column_ids : List Nat) (file_metadata : DeltaFileMetaData)
    (rd : MultiFileReaderData) :
    (finalizeBindDelta delta_file_number_opt delta_file_number_idx global_columns
      global_column_ids file_metadata rd).column_mapping = rd.column_mapping := by
  unfold finalizeBindDelta
  by_cases hopt : delta_file_number_opt = true
  · by_cases hpm : file_metadata.partition_map.isEmpty = true
    · simp [hopt, hpm]
    · simp [hopt, hpm]
  · by_cases hpm : file_metadata.partition_map.isEmpty = true
    · simp [hopt, hpm]
    · simp [hopt, hpm]

theorem finalizeBindDelta_partition_mem (delta_file_number_opt : Bool)
    (delta_file_number_idx : Nat) (global_columns : List MFRColumnDefinition)
    (global_column_ids : List Nat) (file_metadata : DeltaFileMetaData)
    (rd : MultiFileReaderData) (x : Nat × DValue)
    (hpm : file_metadata.partition_map ≠ [])
    (hmem : x ∈ partitionConstantsLoop global_columns file_metadata.partition_map 0
      global_column_ids) :
    x ∈ (finalizeBindDelta delta_file_number_opt delta_file_number_idx global_columns
      global_column_ids file_metadata rd).constant_map := by
  unfold finalizeBindDelta
  have hpm' : file_metadata.partition_map.isEmpty = false := by
    cases hl : file_metadata.partition_map with
    | nil => exact absurd hl hpm
    | cons a l => rfl
  by_cases hopt : delta_file_number_opt = true
  · simp only [hopt, if_true, hpm', Bool.false_eq_true, if_false]
    exact List.mem_append.mpr (Or.inr hmem)
  · simp only [hopt, Bool.false_eq_true, if_false, hpm']
    exact List.mem_append.mpr (Or.inr hmem)

theorem customMapLoop_preserves (local_columns global_columns : List MFRColumnDefinition)
    (name_map : List (String × Nat)) (i : Nat) :
    ∀ (ids : List Nat) (i0 : Nat) (rd rd' : MultiFileReaderData),
      customMapLoop local_columns global_columns name_map i0 ids rd = .ok rd' →
      (∃ v, (i, v) ∈ rd.constant_map) →
      i ∉ rd.column_mapping →
      (∃ v, (i, v) ∈ rd'.constant_map) ∧ i ∉ rd'.column_mapping := by
  intro ids
  induction ids with
  | nil =>
    intro i0 rd rd' hok hconst hcm
    have : rd = rd' := by
      simpa [customMapLoop] using hok
    rw [← this]
    exact ⟨hconst, hcm⟩
  | cons c rest ih =>
    intro i0 rd rd' hok hconst hcm
    rcases hconst with ⟨v, hv⟩
    unfold customMapLoop at hok
    by_cases hany : rd.constant_map.any (fun e => e.1 == i0) = true
    · rw [hany] at hok
      simp only [if_true] at hok
      exact ih i0.succ rd rd' hok ⟨v, hv⟩ hcm
    · have hany' : rd.constant_map.any (fun e => e.1 == i0) = false := by
        cases hb : rd.constant_map.any (fun e => e.1 == i0)
        · rfl
        · exact absurd hb hany
      rw [hany'] at hok
      simp only [Bool.false_eq_true, if_false] at hok
      by_cases hrange : c < global_columns.length
      · rw [dif_pos hrange] at hok
        have hne0 : i ≠ i0 := by
          intro heq
          subst heq
          have : rd.constant_map.any (fun e => e.1 == i) = true :=
            List.any_eq_true.mpr ⟨(i, v), hv, by simp⟩
          rw [this] at hany'
          cases hany'
        cases hl : ciLookup name_map (global_columns.get ⟨c, hrange⟩).name with
        | none =>
          rw [hl] at hok
          refine ih (i0 + 1) _ rd' hok ⟨v, ?_⟩ hcm
          exact List.mem_append.mpr (Or.inl hv)
        | some local_id =>
          rw [hl] at hok
          simp only [] at hok
          by_cases hty : (global_columns.get ⟨c, hrange⟩).type ≠
              (local_columns.getD local_id defaultColumnDef).type
          · rw [if_pos hty] at hok
            refine ih (i0 + 1) _ rd' hok ⟨v, hv⟩ ?_
            intro habs
            rcases List.mem_append.mp habs with hin | hin
            · exact hcm hin
            · simp at hin
              exact hne0 hin
          · rw [if_neg hty] at hok
            refine ih (i0 + 1) _ rd' hok ⟨v, hv⟩ ?_
            intro habs
            rcases List.mem_append.mp habs with hin | hin
            · exact hcm hin
            · simp at hin
              exact hne0 hin
      · rw [dif_neg hrange] at hok
        cases hok

theorem customMulfi_preserves (local_columns global_columns : List MFRColumnDefinition)
    (ids : List Nat) (rd rd' : MultiFileReaderData) (i : Nat)
    (hok : customMulfiFileNameMapping local_columns global_columns ids rd = .ok rd')
    (hconst : ∃ v, (i, v) ∈ rd.constant_map) (hcm : i ∉ rd.column_mapping) :
    (∃ v, (i, v) ∈ rd'.constant_map) ∧ i ∉ rd'.column_mapping := by
  have hok2 : (match customMapLoop local_columns global_columns (buildNameMap local_columns)
      0 ids rd with
    | Except.error e => (Except.error e : Except String MultiFileReaderData)
    | Except.ok rd1 => Except.ok { rd1 with empty_columns := rd1.column_ids.isEmpty }) =
      Except.ok rd' := hok
  cases hloop : customMapLoop local_columns global_columns (buildNameMap local_columns)
      0 ids rd with
  | error e => rw [hloop] at hok2; cases hok2
  | ok rd1 =>
    rw [hloop] at hok2
    simp at hok2
    have hpres := customMapLoop_preserves local_columns global_columns
      (buildNameMap local_columns) i ids 0 rd rd1 hloop hconst hcm
    rw [← hok2]
    exact hpres

theorem createColumnMapping_not_mapped (local_columns global_columns : List MFRColumnDefinition)
    (ids : List Nat) (rd : MultiFileReaderData) (frn_idx : Nat) (rd2 : MultiFileReaderData)
    (i : Nat)
    (hok : createColumnMapping local_columns global_columns ids rd frn_idx = .ok rd2)
    (hconst : ∃ v, (i, v) ∈ rd.constant_map) (hcm : i ∉ rd.column_mapping)
    (hi : i < ids.length) :
    i ∉ rd2.column_mapping := by
  unfold createColumnMapping at hok
  cases hcc : customMulfiFileNameMapping local_columns global_columns ids rd with
  | error e => rw [hcc] at hok; cases hok
  | ok rd1 =>
    rw [hcc] at hok
    simp only [] at hok
    have hpres := customMulfi_preserves local_columns global_columns ids rd rd1 i hcc
      hconst hcm
    by_cases hfr : ids.length ≤ frn_idx
    · rw [if_pos hfr] at hok
      cases hlook : ciLookup (buildNameMap local_columns) strFileRowNumber with
      | none => rw [hlook] at hok; cases hok
      | some local_id =>
        rw [hlook] at hok
        simp only [] at hok
        simp at hok
        rw [← hok]
        intro habs
        rcases List.mem_append.mp habs with hin | hin
        · exact hpres.2 hin
        · simp at hin
          omega
    · rw [if_neg hfr] at hok
      simp at hok
      rw [← hok]
      exact hpres.2

/-- C4: for a file with a non-empty partition map, every projected non-rowid
global column whose name case-insensitively hits the partition map receives a
constant in the per-file bind — the raw partition bytes as a BLOB when the
declared global type is BLOB, otherwise the partition string cast to the
declared type — and no physical column of the file is mapped for that
projection position. -/
theorem finalizeBind_partition_constant
    (local_columns global_columns : List MFRColumnDefinition) (global_column_ids : List Nat)
    (file_metadata : DeltaFileMetaData) (rd : MultiFileReaderData)
    (delta_file_number_opt : Bool) (delta_file_number_idx file_row_number_idx : Nat)
    (i col_id : Nat) (v : String)
    (hpm : file_metadata.partition_map ≠ [])
    (hj : global_column_ids.get? i = some col_id)
    (hrow : IsRowIdColumnId col_id = false)
    (hlook : ciLookup file_metadata.partition_map
      (global_columns.getD col_id defaultColumnDef).name = some v)
    (hcm : i ∉ rd.column_mapping) :
    ((i, if (global_columns.getD col_id defaultColumnDef).type == LType.blob then
        DValue.blobRaw v
      else DValue.defaultCastAs v (global_columns.getD col_id defaultColumnDef).type) ∈
      (finalizeBindDelta delta_file_number_opt delta_file_number_idx global_columns
        global_column_ids file_metadata rd).constant_map) ∧
    (∀ rd2 : MultiFileReaderData,
      createColumnMapping local_columns global_columns global_column_ids
        (finalizeBindDelta delta_file_number_opt delta_file_number_idx global_columns
          global_column_ids file_metadata rd) file_row_number_idx = .ok rd2 →
      i ∉ rd2.column_mapping) := by
  have hmem0 := partitionConstantsLoop_mem global_columns file_metadata.partition_map
    global_column_ids 0 i col_id v hj hrow hlook
  rw [Nat.zero_add] at hmem0
  have hmem : (i, if (global_columns.getD col_id defaultColumnDef).type == LType.blob then
      DValue.blobRaw v
    else DValue.defaultCastAs v (global_columns.getD col_id defaultColumnDef).type) ∈
      (finalizeBindDelta delta_file_number_opt delta_file_number_idx global_columns
        global_column_ids file_metadata rd).constant_map :=
    finalizeBindDelta_partition_mem delta_file_number_opt delta_file_number_idx
      global_columns global_column_ids file_metadata rd _ hpm hmem0
  refine ⟨hmem, ?_⟩
  intro rd2 hok
  have hi : i < global_column_ids.length := by
    rcases List.get?_eq_some.mp hj with ⟨h, _⟩
    exact h
  apply createColumnMapping_not_mapped local_columns global_columns global_column_ids _
    file_row_number_idx rd2 i hok ⟨_, hmem⟩ _ hi
  rw [finalizeBindDelta_column_mapping]
  exact hcm

/-- Witness for C4: a blob partition column at projection position 1. -/
theorem finalizeBind_partition_constant_witness :
    (1, DValue.blobRaw ("bytes".data.asString)) ∈
      (finalizeBindDelta false 0 exampleGlobalColumns [0, 2] examplePartitionMeta
        emptyReaderData).constant_map := by
  have h := finalizeBind_partition_constant exampleLocalColumns exampleGlobalColumns
    [0, 2] examplePartitionMeta emptyReaderData false 0 2 1 2 ("bytes".data.asString)
    (by decide) (by decide) (by decide) (by decide) (by decide)
  exact h.1

theorem customMapLoop_mono_pair (local_columns global_columns : List MFRColumnDefinition)
    (name_map : List (String × Nat)) (x : Nat × DValue) :
    ∀ (ids : List Nat) (i0 : Nat) (rd rd' : MultiFileReaderData),
      customMapLoop local_columns global_columns name_map i0 ids rd = .ok rd' →
      x ∈ rd.constant_map → x ∈ rd'.constant_map := by
  intro ids
  induction ids with
  | nil =>
    intro i0 rd rd' hok hx
    have : rd = rd' := by simpa [customMapLoop] using hok
    rw [← this]; exact hx
  | cons c rest ih =>
    intro i0 rd rd' hok hx
    unfold customMapLoop at hok
    by_cases hany : rd.constant_map.any (fun e => e.1 == i0) = true
    · rw [hany] at hok
      simp only [if_true] at hok
      exact ih (i0 + 1) rd rd' hok hx
    · have hany' : rd.constant_map.any (fun e => e.1 == i0) = false := by
        cases hb : rd.constant_map.any (fun e => e.1 == i0)
        · rfl
        · exact absurd hb hany
      rw [hany'] at hok
      simp only [Bool.false_eq_true, if_false] at hok
      by_cases hrange : c < global_columns.length
      · rw [dif_pos hrange] at hok
        cases hl : ciLookup name_map (global_columns.get ⟨c, hrange⟩).name with
        | none =>
          rw [hl] at hok
          exact ih (i0 + 1) _ rd' hok (List.mem_append.mpr (Or.inl hx))
        | some local_id =>
          rw [hl] at hok
          simp only [] at hok
          by_cases hty : (global_columns.get ⟨c, hrange⟩).type ≠
              (local_columns.getD local_id defaultColumnDef).type
          · rw [if_pos hty] at hok
            exact ih (i0 + 1) _ rd' hok hx
          · rw [if_neg hty] at hok
            exact ih (i0 + 1) _ rd' hok hx
      · rw [dif_neg hrange] at hok
        cases hok

theorem customMapLoop_ok (local_columns global_columns : List MFRColumnDefinition)
    (name_map : List (String × Nat)) :
    ∀ (ids : List Nat) (i0 : Nat) (rd : MultiFileReaderData),
      (∀ c ∈ ids, c < global_columns.length) →
      ∃ rd', customMapLoop local_columns global_columns name_map i0 ids rd = .ok rd' := by
  intro ids
  induction ids with
  | nil => intro i0 rd _; exact ⟨rd, rfl⟩
  | cons c rest ih =>
    intro i0 rd hall
    have hrange : c < global_columns.length := hall c (List.mem_cons_self _ _)
    have hall' : ∀ d ∈ rest, d < global_columns.length :=
      fun d hd => hall d (List.mem_cons_of_mem _ hd)
    unfold customMapLoop
    by_cases hany : rd.constant_map.any (fun e => e.1 == i0) = true
    · rw [hany]
      simp only [if_true]
      exact ih (i0 + 1) rd hall'
    · have hany' : rd.constant_map.any (fun e => e.1 == i0) = false := by
        cases hb : rd.constant_map.any (fun e => e.1 == i0)
        · rfl
        · exact absurd hb hany
      rw [hany']
      simp only [Bool.false_eq_true, if_false]
      rw [dif_pos hrange]
      cases hl : ciLookup name_map (global_columns.get ⟨c, hrange⟩).name with
      | none => exact ih (i0 + 1) _ hall'
      | some local_id =>
        simp only []
        by_cases hty : (global_columns.get ⟨c, hrange⟩).type ≠
            (local_columns.getD local_id defaultColumnDef).type
        · rw [if_pos hty]
          exact ih (i0 + 1) _ hall'
        · rw [if_neg hty]
          exact ih (i0 + 1) _ hall'

theorem customMapLoop_null_default (local_columns global_columns : List MFRColumnDefinition)
    (name_map : List (String × Nat)) :
    ∀ (ids : List Nat) (i0 : Nat) (rd : MultiFileReaderData) (j cid : Nat)
      (hrange : cid < global_columns.length),
      ids.get? j = some cid →
      (∀ e ∈ rd.constant_map, e.1 ≠ i0 + j) →
      ciLookup name_map (global_columns.get ⟨cid, hrange⟩).name = none →
      (∀ c ∈ ids, c < global_columns.length) →
      i0 + j ∉ rd.column_mapping →
      ∃ rd', customMapLoop local_columns global_columns name_map i0 ids rd = .ok rd' ∧
        (i0 + j, DValue.nullOf (global_columns.get ⟨cid, hrange⟩).type) ∈ rd'.constant_map ∧
        i0 + j ∉ rd'.column_mapping := by
  intro ids
  induction ids with
  | nil => intro i0 rd j cid hrange hj; cases hj
  | cons c rest ih =>
    intro i0 rd j cid hrange hj hninit hmiss hall hcm
    have hall' : ∀ d ∈ rest, d < global_columns.length :=
      fun d hd => hall d (List.mem_cons_of_mem _ hd)
    cases j with
    | zero =>
      have hc : c = cid := by simpa [List.get?_cons_zero] using hj
      subst hc
      have hany' : rd.constant_map.any (fun e => e.1 == i0) = false := by
        apply List.any_eq_false.mpr
        intro e he
        simp
        have := hninit e he
        simpa using this
      have hstep : customMapLoop local_columns global_columns name_map i0 (c :: rest) rd =
          customMapLoop local_columns global_columns name_map (i0 + 1) rest
            { rd with constant_map := rd.constant_map ++
              [(i0, DValue.nullOf (global_columns.get ⟨c, hrange⟩).type)] } := by
        conv_lhs => unfold customMapLoop
        rw [hany']
        simp only [Bool.false_eq_true, if_false]
        rw [dif_pos hrange, hmiss]
      rcases customMapLoop_ok local_columns global_columns name_map rest (i0 + 1)
          { rd with constant_map := rd.constant_map ++
            [(i0, DValue.nullOf (global_columns.get ⟨c, hrange⟩).type)] } hall' with ⟨rd', hok⟩
      refine ⟨rd', by rw [hstep]; exact hok, ?_, ?_⟩
      · have hx : (i0 + 0, DValue.nullOf (global_columns.get ⟨c, hrange⟩).type) ∈
            rd.constant_map ++ [(i0, DValue.nullOf (global_columns.get ⟨c, hrange⟩).type)] := by
          rw [Nat.add_zero]
          exact List.mem_append.mpr (Or.inr (List.mem_singleton.mpr rfl))
        exact customMapLoop_mono_pair local_columns global_columns name_map _ rest (i0 + 1)
          _ rd' hok hx
      · have hpres := customMapLoop_preserves local_columns global_columns name_map (i0 + 0)
          rest (i0 + 1) _ rd' hok
          ⟨DValue.nullOf (global_columns.get ⟨c, hrange⟩).type, by
            rw [Nat.add_zero]
            exact List.mem_append.mpr (Or.inr (List.mem_singleton.mpr rfl))⟩ hcm
        exact hpres.2
    | succ j' =>
      have hj' : rest.get? j' = some cid := by simpa [List.get?_cons_succ] using hj
      have hrange0 : c < global_columns.length := hall c (List.mem_cons_self _ _)
      have harith : i0 + 1 + j' = i0 + (j' + 1) := by omega
      by_cases hany : rd.constant_map.any (fun e => e.1 == i0) = true
      · have hstep : customMapLoop local_columns global_columns name_map i0 (c :: rest) rd =
            customMapLoop local_columns global_columns name_map (i0 + 1) rest rd := by
          conv_lhs => unfold customMapLoop
          rw [hany]
          simp only [if_true]
        rcases ih (i0 + 1) rd j' cid hrange hj'
            (by intro e he; rw [harith]; exact hninit e he)
            hmiss hall' (by rw [harith]; exact hcm) with ⟨rd', hok, hmem, hcm'⟩
        rw [harith] at hmem hcm'
        exact ⟨rd', by rw [hstep]; exact hok, hmem, hcm'⟩
      · have hany' : rd.constant_map.any (fun e => e.1 == i0) = false := by
          cases hb : rd.constant_map.any (fun e => e.1 == i0)
          · rfl
          · exact absurd hb hany
        cases hl : ciLookup name_map (global_columns.get ⟨c, hrange0⟩).name with
        | none =>
          have hstep : customMapLoop local_columns global_columns name_map i0 (c :: rest) rd =
              customMapLoop local_columns global_columns name_map (i0 + 1) rest
                { rd with constant_map := rd.constant_map ++
                  [(i0, DValue.nullOf (global_columns.get ⟨c, hrange0⟩).type)] } := by
            conv_lhs => unfold customMapLoop
            rw [hany']
            simp only [Bool.false_eq_true, if_false]
            rw [dif_pos hrange0, hl]
          rcases ih (i0 + 1)
              { rd with constant_map := rd.constant_map ++
                [(i0, DValue.nullOf (global_columns.get ⟨c, hrange0⟩).type)] } j' cid hrange hj'
              (by
                intro e he
                rcases List.mem_append.mp he with hin | hin
                · rw [harith]; exact hninit e hin
                · simp at hin
                  subst hin
                  show i0 ≠ i0 + 1 + j'
                  omega)
              hmiss hall' (by rw [harith]; exact hcm) with ⟨rd', hok, hmem, hcm'⟩
          rw [harith] at hmem hcm'
          exact ⟨rd', by rw [hstep]; exact hok, hmem, hcm'⟩
        | some local_id =>
          by_cases hty : (global_columns.get ⟨c, hrange0⟩).type ≠
              (local_columns.getD local_id defaultColumnDef).type
          · have hstep : customMapLoop local_columns global_columns name_map i0 (c :: rest) rd =
                customMapLoop local_columns global_columns name_map (i0 + 1) rest
                  { rd with
                    cast_map := natInsertOverwrite rd.cast_map local_id
                      (global_columns.get ⟨c, hrange0⟩).type
                    column_mapping := rd.column_mapping ++ [i0]
                    column_ids := rd.column_ids ++ [local_id] } := by
              conv_lhs => unfold customMapLoop
              rw [hany']
              simp only [Bool.false_eq_true, if_false]
              rw [dif_pos hrange0, hl]
              simp only []
              rw [if_pos hty]
            rcases ih (i0 + 1)
                { rd with
                  cast_map := natInsertOverwrite rd.cast_map local_id
                    (global_columns.get ⟨c, hrange0⟩).type
                  column_mapping := rd.column_mapping ++ [i0]
                  column_ids := rd.column_ids ++ [local_id] } j' cid hrange hj'
                (by intro e he; rw [harith]; exact hninit e he)
                hmiss hall'
                (by
                  rw [harith]
                  intro habs
                  rcases List.mem_append.mp habs with hin | hin
                  · exact hcm hin
                  · simp at hin) with ⟨rd', hok, hmem, hcm'⟩
            rw [harith] at hmem hcm'
            exact ⟨rd', by rw [hstep]; exact hok, hmem, hcm'⟩
          · have hstep : customMapLoop local_columns global_columns name_map i0 (c :: rest) rd =
                customMapLoop local_columns global_columns name_map (i0 + 1) rest
                  { rd with
                    column_mapping := rd.column_mapping ++ [i0]
                    column_ids := rd.column_ids ++ [local_id] } := by
              conv_lhs => unfold customMapLoop
              rw [hany']
              simp only [Bool.false_eq_true, if_false]
              rw [dif_pos hrange0, hl]
              simp only []
              rw [if_neg hty]
            rcases ih (i0 + 1)
                { rd with
                  column_mapping := rd.column_mapping ++ [i0]
                  column_ids := rd.column_ids ++ [local_id] } j' cid hrange hj'
                (by intro e he; rw [harith]; exact hninit e he)
                hmiss hall'
                (by
                  rw [harith]
                  intro habs
                  rcases List.mem_append.mp habs with hin | hin
                  · exact hcm hin
                  · simp at hin) with ⟨rd', hok, hmem, hcm'⟩
            rw [harith] at hmem hcm'
            exact ⟨rd', by rw [hstep]; exact hok, hmem, hcm'⟩

/-- C5: a globally-projected column that is not already constant for the file
and whose name (matched case-insensitively) is absent from the file's local
columns is resolved to a NULL constant of the declared global type — no error
is raised — and no physical column of the file is mapped for that projection
position. -/
theorem customMapping_missing_column_null
    (local_columns global_columns : List MFRColumnDefinition) (global_column_ids : List Nat)
    (rd : MultiFileReaderData) (i cid : Nat) (hrange : cid < global_columns.length)
    (hj : global_column_ids.get? i = some cid)
    (hnotconst : ∀ e ∈ rd.constant_map, e.1 ≠ i)
    (hmiss : ciLookup (buildNameMap local_columns)
      (global_columns.get ⟨cid, hrange⟩).name = none)
    (hall : ∀ c ∈ global_column_ids, c < global_columns.length)
    (hcm : i ∉ rd.column_mapping) :
    ∃ rd', customMulfiFileNameMapping local_columns global_columns global_column_ids rd =
        .ok rd' ∧
      (i, DValue.nullOf (global_columns.get ⟨cid, hrange⟩).type) ∈ rd'.constant_map ∧
      i ∉ rd'.column_mapping := by
  rcases customMapLoop_null_default local_columns global_columns (buildNameMap local_columns)
      global_column_ids 0 rd i cid hrange hj
      (by intro e he; rw [Nat.zero_add]; exact hnotconst e he)
      hmiss hall (by rw [Nat.zero_add]; exact hcm) with ⟨rd1, hok, hmem, hcm'⟩
  rw [Nat.zero_add] at hmem hcm'
  refine ⟨{ rd1 with empty_columns := rd1.column_ids.isEmpty }, ?_, hmem, hcm'⟩
  show (match customMapLoop local_columns global_columns (buildNameMap local_columns)
      0 global_column_ids rd with
    | Except.error e => (Except.error e : Except String MultiFileReaderData)
    | Except.ok rd1 => Except.ok { rd1 with empty_columns := rd1.column_ids.isEmpty }) =
      Except.ok { rd1 with empty_columns := rd1.column_ids.isEmpty }
  rw [hok]

/-- Witness for C5: column `extra` of the global schema is absent from the
local file columns. -/
theorem customMapping_missing_column_null_witness :
    ∃ rd', customMulfiFileNameMapping exampleLocalColumns exampleGlobalColumns [0, 1, 3]
        emptyReaderData = .ok rd' ∧
      (2, DValue.nullOf (exampleGlobalColumns.get ⟨3, by decide⟩).type) ∈ rd'.constant_map ∧
      2 ∉ rd'.column_mapping :=
  customMapping_missing_column_null exampleLocalColumns exampleGlobalColumns [0, 1, 3]
    emptyReaderData 2 3 (by decide) (by decide) (by decide) (by decide) (by decide) (by decide)

theorem ciLookup_mem {α : Type} (m : List (String × α)) (key : String) (v : α) :
    ciLookup m key = some v → ∃ kname, (kname, v) ∈ m ∧ ciEq kname key = true := by
  induction m with
  | nil => intro h; cases h
  | cons p rest ih =>
    intro h
    unfold ciLookup at h
    by_cases hc : ciEq p.1 key = true
    · rw [if_pos hc] at h
      refine ⟨p.1, ?_, hc⟩
      simp at h
      rw [← h]
      exact List.mem_cons_self _ _
    · rw [if_neg hc] at h
      rcases ih h with ⟨kname, hmem, hck⟩
      exact ⟨kname, List.mem_cons_of_mem _ hmem, hck⟩

theorem buildSelectedLoop_sound (global_columns : List MFRColumnDefinition) :
    ∀ (ids : List Nat) (i0 : Nat) (acc : List (String × Nat)) (name : String) (k : Nat),
      (name, k) ∈ buildSelectedLoop global_columns i0 ids acc →
      (name, k) ∈ acc ∨
        ∃ j cid, ids.get? j = some cid ∧ k = i0 + j ∧ IsRowIdColumnId cid = false ∧
          (global_columns.getD cid defaultColumnDef).name = name := by
  intro ids
  induction ids with
  | nil =>
    intro i0 acc name k h
    left
    simpa [buildSelectedLoop] using h
  | cons c rest ih =>
    intro i0 acc name k h
    by_cases hrc : IsRowIdColumnId c = true
    · have hval : buildSelectedLoop global_columns i0 (c :: rest) acc =
          buildSelectedLoop global_columns (i0 + 1) rest acc := by
        conv_lhs => unfold buildSelectedLoop
        rw [hrc]
        simp
      rw [hval] at h
      rcases ih (i0 + 1) acc name k h with hin | ⟨j, cid, hj, hk, hrid, hname⟩
      · exact Or.inl hin
      · exact Or.inr ⟨j + 1, cid, by simpa using hj, by omega, hrid, hname⟩
    · have hrc' : IsRowIdColumnId c = false := by
        cases hb : IsRowIdColumnId c
        · rfl
        · exact absurd hb hrc
      have hval : buildSelectedLoop global_columns i0 (c :: rest) acc =
          buildSelectedLoop global_columns (i0 + 1) rest
            (ciInsertKeepFirst acc ((global_columns.getD c defaultColumnDef).name, i0).1
              ((global_columns.getD c defaultColumnDef).name, i0).2) := by
        conv_lhs => unfold buildSelectedLoop
        rw [hrc']
        simp
      rw [hval] at h
      rcases ih (i0 + 1) _ name k h with hin | ⟨j, cid, hj, hk, hrid, hname⟩
      · unfold ciInsertKeepFirst at hin
        cases hl : ciLookup acc (global_columns.getD c defaultColumnDef).name with
        | some w =>
          rw [hl] at hin
          exact Or.inl hin
        | none =>
          rw [hl] at hin
          rcases List.mem_append.mp hin with hin2 | hin2
          · exact Or.inl hin2
          · simp at hin2
            exact Or.inr ⟨0, c, by simp, by omega, hrc', by
              rw [List.getD_eq_getElem?_getD]
              exact hin2.1.symm⟩
      · exact Or.inr ⟨j + 1, cid, by simpa using hj, by omega, hrid, hname⟩

theorem initializeGlobalState_eval (delta_file_number_opt : Bool)
    (global_columns : List MFRColumnDefinition) (global_column_ids : List Nat) :
    initializeGlobalState delta_file_number_opt global_columns global_column_ids = .ok
      { extra_columns :=
          (if ciLookup (buildSelectedLoop global_columns 0 global_column_ids [])
              strFileRowNumber = none then [LType.bigint] else []) ++
          (if delta_file_number_opt = true ∧
              ciLookup (buildSelectedLoop global_columns 0 global_column_ids [])
                strDeltaFileNumber = none then [LType.ubigint] else [])
        file_row_number_idx :=
          (ciLookup (buildSelectedLoop global_columns 0 global_column_ids [])
            strFileRowNumber).getD global_column_ids.length
        delta_file_number_idx :=
          if delta_file_number_opt = true then
            (ciLookup (buildSelectedLoop global_columns 0 global_column_ids [])
              strDeltaFileNumber).getD (global_column_ids.length +
                (if ciLookup (buildSelectedLoop global_columns 0 global_column_ids [])
                    strFileRowNumber = none then 1 else 0))
          else INVALID_INDEX } := by
  have hne1 : (strFileRowNumber == strFileRowNumber) = true := by decide
  have hne2 : (strDeltaFileNumber == strFileRowNumber) = false := by decide
  have hne3 : (strDeltaFileNumber == strDeltaFileNumber) = true := by decide
  have hne4 : ¬ (strDeltaFileNumber = strFileRowNumber) := by decide
  cases delta_file_number_opt with
  | false =>
    cases hf : ciLookup (buildSelectedLoop global_columns 0 global_column_ids [])
        strFileRowNumber with
    | none =>
      simp [initializeGlobalState, mapRequiredColumns, hf, setColumnIdx, List.foldlM,
        hne1, hne2, hne3, hne4, Except.bind, Bind.bind, Pure.pure, Except.pure]
    | some k =>
      simp [initializeGlobalState, mapRequiredColumns, hf, setColumnIdx, List.foldlM,
        hne1, hne2, hne3, hne4, Except.bind, Bind.bind, Pure.pure, Except.pure]
  | true =>
    cases hf : ciLookup (buildSelectedLoop global_columns 0 global_column_ids [])
        strFileRowNumber with
    | none =>
      cases hd : ciLookup (buildSelectedLoop global_columns 0 global_column_ids [])
          strDeltaFileNumber with
      | none =>
        simp [initializeGlobalState, mapRequiredColumns, hf, hd, setColumnIdx, List.foldlM,
          hne1, hne2, hne3, hne4, Except.bind, Bind.bind, Pure.pure, Except.pure]
      | some k2 =>
        simp [initializeGlobalState, mapRequiredColumns, hf, hd, setColumnIdx, List.foldlM,
          hne1, hne2, hne3, hne4, Except.bind, Bind.bind, Pure.pure, Except.pure]
    | some k =>
      cases hd : ciLookup (buildSelectedLoop global_columns 0 global_column_ids [])
          strDeltaFileNumber with
      | none =>
        simp [initializeGlobalState, mapRequiredColumns, hf, hd, setColumnIdx, List.foldlM,
          hne1, hne2, hne3, hne4, Except.bind, Bind.bind, Pure.pure, Except.pure]
      | some k2 =>
        simp [initializeGlobalState, mapRequiredColumns, hf, hd, setColumnIdx, List.foldlM,
          hne1, hne2, hne3, hne4, Except.bind, Bind.bind, Pure.pure, Except.pure]

theorem selected_sound (global_columns : List MFRColumnDefinition) (ids : List Nat)
    (name : String) (k : Nat)
    (h : ciLookup (buildSelectedLoop global_columns 0 ids []) name = some k) :
    ∃ cid, ids.get? k = some cid ∧ IsRowIdColumnId cid = false ∧
      ciEq (global_columns.getD cid defaultColumnDef).name name = true := by
  rcases ciLookup_mem _ _ _ h with ⟨kname, hmem, hck⟩
  rcases buildSelectedLoop_sound global_columns ids 0 [] kname k hmem with
    hin | ⟨j, cid, hj, hk, hrid, hname⟩
  · cases hin
  · rw [Nat.zero_add] at hk
    subst hk
    exact ⟨cid, hj, hrid, by rw [hname]; exact hck⟩

/-- C8: each required synthetic column (`file_row_number`, and
`delta_file_number` when the option is enabled) is mapped either to the
projection position of a non-rowid projected column with the same
case-insensitive name, or to a deterministic fresh trailing index after all
user-projected columns: `file_row_number` gets the projection size when
absent, `delta_file_number` the projection size plus one exactly when
`file_row_number` is also absent; with the option off its index stays
INVALID_INDEX. -/
theorem initializeGlobalState_mapping (delta_file_number_opt : Bool)
    (global_columns : List MFRColumnDefinition) (global_column_ids : List Nat) :
    ∃ st, initializeGlobalState delta_file_number_opt global_columns global_column_ids =
        .ok st ∧
      (∀ k, ciLookup (buildSelectedLoop global_columns 0 global_column_ids [])
          strFileRowNumber = some k →
        st.file_row_number_idx = k ∧
        ∃ cid, global_column_ids.get? k = some cid ∧ IsRowIdColumnId cid = false ∧
          ciEq (global_columns.getD cid defaultColumnDef).name strFileRowNumber = true) ∧
      (ciLookup (buildSelectedLoop global_columns 0 global_column_ids []) strFileRowNumber =
          none → st.file_row_number_idx = global_column_ids.length) ∧
      (delta_file_number_opt = true →
        (∀ k, ciLookup (buildSelectedLoop global_columns 0 global_column_ids [])
            strDeltaFileNumber = some k →
          st.delta_file_number_idx = k ∧
          ∃ cid, global_column_ids.get? k = some cid ∧ IsRowIdColumnId cid = false ∧
            ciEq (global_columns.getD cid defaultColumnDef).name strDeltaFileNumber = true) ∧
        (ciLookup (buildSelectedLoop global_columns 0 global_column_ids [])
            strDeltaFileNumber = none →
          st.delta_file_number_idx = global_column_ids.length +
            (if ciLookup (buildSelectedLoop global_columns 0 global_column_ids [])
                strFileRowNumber = none then 1 else 0))) ∧
      (delta_file_number_opt = false → st.delta_file_number_idx = INVALID_INDEX) := by
  refine ⟨_, initializeGlobalState_eval delta_file_number_opt global_columns global_column_ids,
    ?_, ?_, ?_, ?_⟩
  · intro k hk
    refine ⟨by simp [hk], selected_sound global_columns global_column_ids strFileRowNumber k hk⟩
  · intro hk
    simp [hk]
  · intro hopt
    refine ⟨?_, ?_⟩
    · intro k hk
      refine ⟨by simp [hk, hopt], selected_sound global_columns global_column_ids
        strDeltaFileNumber k hk⟩
    · intro hk
      simp [hk, hopt]
  · intro hopt
    simp [hopt]

/-- Witness for C8: a projection with neither synthetic column present gets
both fresh trailing indices, in order. -/
theorem initializeGlobalState_mapping_witness :
    ∃ st, initializeGlobalState true exampleGlobalColumns [0, 1] = .ok st ∧
      st.file_row_number_idx = 2 ∧ st.delta_file_number_idx = 3 := by
  rcases initializeGlobalState_mapping true exampleGlobalColumns [0, 1] with
    ⟨st, hok, _, hfrn, hdfn, _⟩
  refine ⟨st, hok, ?_, ?_⟩
  · have h1 := hfrn (by decide)
    simpa using h1
  · have h2 := (hdfn rfl).2 (by decide)
    rw [h2]
    decide
